import Mathlib

/-!
# Shadow metadata index of the generic malloc allocator

A shallow embedding of `src/allocators/generic_malloc.c`: the per-arena bitmap
of chunk starts, the insert/delete protocol run around allocate, free and
reallocate, promotion of large chunks to big-allocation records, and the
reverse lookup from an interior address.

Addresses, sizes and indices are natural numbers.  The places where the C
arithmetic is done in a fixed width and can wrap are reduced explicitly
(`sub_uintptr`, the `unsigned` start index of `lookup`, the size computed by
`pre_alloc`).  A fatal outcome (a failed assertion, `abort()`, or a null
dereference) is `none`; a C `NULL` result is an inner `none`.  The functions
of the read path take the flag `ndebug`: with it the assertions are compiled
out and `lookup` narrows its backward search.

The registry of big allocations is an external collaborator; the model keeps
the one arena the chunks live in and the list of records that this allocator
created under it.
-/

namespace GenericMalloc

/-! ## Constants of the platform and of the missing headers -/

/-- Modelled from the spec: the slot size of the bitmap ("one bit per aligned
slot"); the header defining `MALLOC_ALIGN` is not part of the source unit, the
value is the LP64 one. -/
def MALLOC_ALIGN : Nat := 16

/-- Modelled from the spec: the number of bits of one bitmap word
(`8 * sizeof (unsigned long)` on LP64). -/
def BITMAP_WORD_NBITS : Nat := 64

/-- Modelled from the spec: the fixed size of the metadata record appended to a
chunk, `sizeof (struct extended_insert)`. -/
def SIZEOF_EXTENDED_INSERT : Nat := 8

/-- Modelled from the spec: `sizeof (struct insert)`, the `insert_size` of
`bitmap_insert`; in the default build `struct extended_insert` holds nothing
but a `struct insert`. -/
def SIZEOF_INSERT : Nat := 8

/-- Modelled from the spec: `ALIGNOF(void *)`. -/
def ALIGNOF_VOIDP : Nat := 8

/-- Number of values of `uintptr_t`, `size_t` and `unsigned long`: `2 ^ 64`. -/
@[irreducible] def UINTPTR_MOD : Nat := 18446744073709551616

/-- Number of values of `unsigned`: `2 ^ 32`. -/
@[irreducible] def UNSIGNED_MOD : Nat := 4294967296

/-- The constant of `SHOULD_PROMOTE_TO_BIGALLOC`. -/
@[irreducible] def PROMOTE_THRESHOLD : Nat := 131072

/-- Modelled from the spec: `ROUND_DOWN_PTR(p, a)` of the missing header. -/
def ROUND_DOWN_PTR (p a : Nat) : Nat := p / a * a

/-- Modelled from the spec: `ROUND_UP_PTR(p, a)` of the missing header. -/
def ROUND_UP_PTR (p a : Nat) : Nat := (p + a - 1) / a * a

/-- Subtraction of two machine words, as the C code computes it. -/
def sub_uintptr (a b : Nat) : Nat := (a + UINTPTR_MOD - b % UINTPTR_MOD) % UINTPTR_MOD

/-- The C macro `MAX`. -/
def MAX (a b : Nat) : Nat := if a > b then a else b

/-! ## Data model -/

/-- The allocators a record of the registry can name. -/
inductive allocator where
  | generic_malloc
  | alloca
  | other
deriving DecidableEq, Repr

/-- The fields of `struct big_allocation` the code reads. -/
structure big_allocation where
  begin_addr : Nat
  end_addr : Nat
  allocated_by : allocator
deriving DecidableEq, Repr

/-- The type `struct arena_bitmap_info`.  `bitmap i` is bit `i` of the word
sequence, i.e. bit `i % BITMAP_WORD_NBITS` of word `i / BITMAP_WORD_NBITS`. -/
structure arena_bitmap_info where
  nwords : Nat
  bitmap : Nat → Bool
  bitmap_base_addr : Nat

/-- The two fields of `struct insert` the code writes. -/
structure insert where
  alloc_site_flag : Nat
  alloc_site : Nat
deriving DecidableEq, Repr

/-- The state the hooks work on: one arena of the generic malloc allocator, the
records promoted under it, the memory holding the metadata records, what the
host allocator answers to `malloc_usable_size`, the globals and the
thread-local allocation context.  `private_memory` is what the memory of the
private allocator holds, bit by bit of a word sequence it hands out, where
nothing has been written yet. -/
structure heap_state where
  arena_begin : Nat
  arena_end : Nat
  suballocator_private : Option arena_bitmap_info
  promoted : List big_allocation
  inserts : Nat → insert
  malloc_usable_size : Nat → Nat
  biggest_allocated_object : Nat
  biggest_unpromoted_object : Nat
  safe_to_call_malloc : Nat
  current_allocsite : Nat
  current_allocsz : Nat
  big_allocations_1_begin : Nat
  private_memory : Nat → Bool

/-- The value `liballocs_err_t`: `NULL` is "no error". -/
inductive liballocs_err_t where
  | NULL
  | unindexed_heap_object
deriving DecidableEq, Repr

/-- What `__generic_malloc_get_info` hands back: the error, or the base, the
caller-visible size, the address of the metadata record it consulted and the
content of that record. -/
inductive get_info_result where
  | unindexed_heap_object
  | no_error (base size heap_info : Nat) (record : insert)
deriving DecidableEq, Repr

/-! ## Helpers of the missing headers -/

/-- Modelled from the spec: `bitmap_set_l`, "set a single bit"; an index outside
the word sequence is a fatal contract violation. -/
def bitmap_set_l (info : arena_bitmap_info) (index : Nat) : Option arena_bitmap_info :=
  if index < info.nwords * BITMAP_WORD_NBITS then
    some { info with bitmap := fun i => if i = index then true else info.bitmap i }
  else none

/-- Modelled from the spec: `bitmap_clear_l`, "clear a single bit"; an index
outside the word sequence is a fatal contract violation. -/
def bitmap_clear_l (info : arena_bitmap_info) (index : Nat) : Option arena_bitmap_info :=
  if index < info.nwords * BITMAP_WORD_NBITS then
    some { info with bitmap := fun i => if i = index then false else info.bitmap i }
  else none

/-- Modelled from the spec: `bitmap_rfind_first_set_leq_l`, the backward scan
"returning the highest set-bit index at or before `index`", counted from the
word `p_bitmap`, or "none found" (the C value `(unsigned long) -1`).  Bits at
or beyond the word `p_limit` are not part of the sequence. -/
def bitmap_rfind_first_set_leq_l (bitmap : Nat → Bool) (p_bitmap p_limit : Nat) :
    Nat → Option Nat
  | 0 =>
    if p_bitmap * BITMAP_WORD_NBITS < p_limit * BITMAP_WORD_NBITS
        ∧ bitmap (p_bitmap * BITMAP_WORD_NBITS) = true then some 0 else none
  | i + 1 =>
    if p_bitmap * BITMAP_WORD_NBITS + (i + 1) < p_limit * BITMAP_WORD_NBITS
        ∧ bitmap (p_bitmap * BITMAP_WORD_NBITS + (i + 1)) = true then some (i + 1)
    else bitmap_rfind_first_set_leq_l bitmap p_bitmap p_limit i

/-- Modelled from the spec: `caller_usable_size_for_chunk_and_malloc_usable_size`,
"usable size minus metadata-record size", in `size_t`. -/
def caller_usable_size_for_chunk_and_malloc_usable_size (_userptr alloc_usable_size : Nat) :
    Nat :=
  sub_uintptr alloc_usable_size SIZEOF_EXTENDED_INSERT

/-- Modelled from the spec: `insert_for_chunk_and_caller_usable_size`, the
address of the record "immediately after user data". -/
def insert_for_chunk_and_caller_usable_size (userptr caller_usable_size : Nat) : Nat :=
  (userptr + caller_usable_size) % UINTPTR_MOD

/-- Modelled from the spec: `insert_for_chunk`, the record of the chunk at
`userptr` found through the host's usable size. -/
def insert_for_chunk (s : heap_state) (userptr : Nat) : Nat :=
  insert_for_chunk_and_caller_usable_size userptr
    (caller_usable_size_for_chunk_and_malloc_usable_size userptr (s.malloc_usable_size userptr))

/-- Modelled from the spec: `usersize`, the host-reported usable size of the
chunk; `__generic_malloc_get_info` receives it as `alloc_usable_chunksize` and
subtracts the record size itself. -/
def usersize (s : heap_state) (userptr : Nat) : Nat := s.malloc_usable_size userptr

/-- Modelled from the spec: `CHUNK_SIZE_WITH_TRAILER`, the requested size
inflated "by the fixed metadata-record size (plus any padding needed to keep
the record's own alignment)", computed in `size_t`. -/
def CHUNK_SIZE_WITH_TRAILER (sz trailer_size align : Nat) : Nat :=
  ROUND_UP_PTR (sz + trailer_size) align % UINTPTR_MOD

/-! ## The registry, seen from this allocator -/

/-- Whether the record covers the address and was allocated by `a`. -/
def big_allocation.covers (b : big_allocation) (addr : Nat) (a : allocator) : Bool :=
  decide (b.allocated_by = a) && decide (b.begin_addr ≤ addr) && decide (addr < b.end_addr)

/-- Modelled from the spec: `find_owning_range_under`, used as
`__lookup_bigalloc_under(userptr, allocator, arena, NULL)`. -/
def lookup_bigalloc_under (s : heap_state) (userptr : Nat) (a : allocator) :
    Option big_allocation :=
  s.promoted.find? (fun b => b.covers userptr a)

/-- Modelled from the spec: `find_owning_range`, used as
`__lookup_bigalloc_from_root(addr, allocator, &start)`.  The arena itself is
not allocated by this allocator, so only promoted records can be found. -/
def lookup_bigalloc_from_root (s : heap_state) (addr : Nat) (a : allocator) :
    Option big_allocation :=
  s.promoted.find? (fun b => b.covers addr a)

/-- Modelled from the spec: `delete_range(address, sub_allocator)`, used as
`__liballocs_delete_bigalloc_at`. -/
def liballocs_delete_bigalloc_at (s : heap_state) (addr : Nat) (a : allocator) : heap_state :=
  { s with promoted :=
      s.promoted.filter (fun b => !(decide (b.begin_addr = addr) && decide (b.allocated_by = a))) }

/-- Modelled from the spec: `truncate_range_end(range, new_end)`, used as
`__liballocs_truncate_bigalloc_at_end`. -/
def liballocs_truncate_bigalloc_at_end (s : heap_state) (b : big_allocation) (new_end : Nat) :
    heap_state :=
  { s with promoted :=
      s.promoted.map (fun r => if r = b then { r with end_addr := new_end } else r) }

/-- The function `fresh_big`: a new record for `[allocptr, allocptr + size)`
allocated by the generic malloc allocator, under the arena.  The registry is
taken never to run out of records, so the `abort()` is not reached. -/
def fresh_big (s : heap_state) (allocptr bigalloc_size : Nat) : heap_state :=
  { s with promoted :=
      { begin_addr := allocptr, end_addr := allocptr + bigalloc_size,
        allocated_by := allocator.generic_malloc } :: s.promoted }

/-- The function `arena_for_userptr`: the arena of this allocator owning the
address, or the null arena (`none`) when there is none, in which case the
assertion fails.  The hooks treat a null arena as fatal in either build (the
assertion, or without it the first dereference of the arena in
`check_arena_bitmap` or `bitmap_delete`); `__generic_malloc_get_info` and
`__generic_malloc_set_type` pass it on to `lookup_object_info` when assertions
are compiled out. -/
def arena_for_userptr (s : heap_state) (userptr : Nat) : Option Unit :=
  if s.arena_begin ≤ userptr ∧ userptr < s.arena_end then some () else none

/-! ## The bitmap store -/

/-- Modelled from the spec: `__private_realloc`, the realloc of the private
allocator, which is not part of the source unit; it is taken to succeed.  It
is called as `__private_realloc(info->bitmap, total_words * sizeof
(bitmap_word_t))`: the words the block had (`old_nwords`, known to the
allocator, not passed by the caller) keep their content, and the added words
hold what the private allocator's memory held, `memory`; nothing is zeroed. -/
def private_realloc (memory : Nat → Bool) (bitmap : Nat → Bool)
    (old_nwords _total_words : Nat) : Nat → Bool :=
  fun i => if i < old_nwords * BITMAP_WORD_NBITS then bitmap i else memory i

/-- The function `check_arena_bitmap`.  A missing store is attached empty (its
base address, which the C code leaves unset until the first growth, is 0
here); the store is grown by `private_realloc` when the arena needs more words
than it has, and only then is the base address stored.  The added words are
used as `private_realloc` returns them. -/
def check_arena_bitmap (s : heap_state) : heap_state :=
  let info : arena_bitmap_info :=
    match s.suballocator_private with
    | some i => i
    | none => { nwords := 0, bitmap := fun _ => false, bitmap_base_addr := 0 }
  let bitmap_base_addr := ROUND_DOWN_PTR s.arena_begin (MALLOC_ALIGN * BITMAP_WORD_NBITS)
  let total_words :=
    sub_uintptr (ROUND_UP_PTR s.arena_end (MALLOC_ALIGN * BITMAP_WORD_NBITS)) bitmap_base_addr
      / (MALLOC_ALIGN * BITMAP_WORD_NBITS)
  if info.nwords < total_words then
    let grown : arena_bitmap_info :=
      { nwords := total_words
        bitmap := private_realloc s.private_memory info.bitmap info.nwords total_words
        bitmap_base_addr := bitmap_base_addr }
    { s with suballocator_private := some grown }
  else { s with suballocator_private := some info }

/-- The macro `SHOULD_PROMOTE_TO_BIGALLOC(userchunk, usable_size)`. -/
def SHOULD_PROMOTE_TO_BIGALLOC (_userchunk usable_size : Nat) : Bool :=
  decide (usable_size > PROMOTE_THRESHOLD)

/-- The bit index `bitmap_insert` passes to `bitmap_set_l`. -/
def insert_bit_index (info : arena_bitmap_info) (allocptr : Nat) : Nat :=
  sub_uintptr allocptr info.bitmap_base_addr / MALLOC_ALIGN

/-- The bit index `bitmap_delete` passes to `bitmap_clear_l`. -/
def delete_bit_index (info : arena_bitmap_info) (userptr : Nat) : Nat :=
  sub_uintptr userptr info.bitmap_base_addr / (MALLOC_ALIGN * BITMAP_WORD_NBITS)

/-- The middle of `bitmap_insert` (from `malloc_usable_size(allocptr)` to the
end of the promotion test): the metadata record is written,
`biggest_allocated_object` is raised, and the chunk is either promoted or
counted in `biggest_unpromoted_object`.  The assertion of the promotion branch
is fatal. -/
def bitmap_insert_metadata (s1 : heap_state) (allocptr caller_requested_size caller : Nat) :
    Option heap_state :=
  let alloc_usable_size := s1.malloc_usable_size allocptr
  let caller_usable_size :=
    caller_usable_size_for_chunk_and_malloc_usable_size allocptr alloc_usable_size
  let p_insert := insert_for_chunk_and_caller_usable_size allocptr caller_usable_size
  let s2 : heap_state :=
    { s1 with
      inserts := fun a =>
        if a = p_insert then { alloc_site_flag := 0, alloc_site := caller } else s1.inserts a
      biggest_allocated_object := MAX caller_usable_size s1.biggest_allocated_object }
  if SHOULD_PROMOTE_TO_BIGALLOC allocptr alloc_usable_size then
    if caller_requested_size ≤ sub_uintptr alloc_usable_size SIZEOF_INSERT then
      some (fresh_big s2 allocptr caller_usable_size)
    else none
  else
    some { s2 with
      biggest_unpromoted_object := MAX caller_usable_size s2.biggest_unpromoted_object }

/-- The function `bitmap_insert` (the arena argument is the arena of the
state): the store is checked, the tracked range is asserted, the metadata is
written by `bitmap_insert_metadata`, and then, whatever the promotion test
said, the bit of the chunk start is set.  Assertions are fatal. -/
def bitmap_insert (s : heap_state) (allocptr caller_requested_size caller : Nat) :
    Option heap_state :=
  let s1 := check_arena_bitmap s
  match s1.suballocator_private with
  | none => none
  | some info =>
    if info.bitmap_base_addr ≠ ROUND_DOWN_PTR s1.arena_begin (MALLOC_ALIGN * BITMAP_WORD_NBITS)
    then none
    else if allocptr >
        info.bitmap_base_addr + info.nwords * MALLOC_ALIGN * BITMAP_WORD_NBITS then none
    else
      match bitmap_insert_metadata s1 allocptr caller_requested_size caller with
      | none => none
      | some s4 =>
        match bitmap_set_l info (insert_bit_index info allocptr) with
        | none => none
        | some info1 => some { s4 with suballocator_private := some info1 }

/-- The hook `post_successful_alloc`. -/
def post_successful_alloc (s : heap_state)
    (allocptr _modified_size _modified_alignment requested_size _requested_alignment
      caller : Nat) : Option heap_state :=
  match arena_for_userptr s allocptr with
  | none => none
  | some _ =>
    match bitmap_insert s allocptr requested_size
        (if s.current_allocsite ≠ 0 then s.current_allocsite else caller) with
    | none => none
    | some s1 => some { s1 with safe_to_call_malloc := 1 }

/-- The hook `pre_alloc`: the size is replaced, the alignment is left as it
is. -/
def pre_alloc (size alignment _caller : Nat) : Option (Nat × Nat) :=
  let orig_size := size
  let size_to_allocate := CHUNK_SIZE_WITH_TRAILER orig_size SIZEOF_EXTENDED_INSERT ALIGNOF_VOIDP
  if size_to_allocate % ALIGNOF_VOIDP = 0 then some (size_to_allocate, alignment) else none

/-- The function `bitmap_delete` (the arena argument is the arena of the
state).  Uncaching has no effect on the index. -/
def bitmap_delete (s : heap_state) (userptr : Nat) : Option heap_state :=
  if userptr = 0 then none
  else
    match lookup_bigalloc_under s userptr allocator.generic_malloc with
    | some _ => some (liballocs_delete_bigalloc_at s userptr allocator.generic_malloc)
    | none =>
      match s.suballocator_private with
      | none => none
      | some info =>
        if info.bitmap_base_addr ≠ ROUND_DOWN_PTR s.arena_begin (MALLOC_ALIGN * BITMAP_WORD_NBITS)
        then none
        else if userptr < info.bitmap_base_addr then none
        else
          match bitmap_clear_l info (delete_bit_index info userptr) with
          | none => none
          | some info1 => some { s with suballocator_private := some info1 }

/-- The hook `pre_nonnull_free` (default build, no lifetime policies): the
chunk is unindexed and the host free proceeds (result 0). -/
def pre_nonnull_free (s : heap_state) (userptr _freed_usable_size : Nat) :
    Option (Nat × heap_state) :=
  match arena_for_userptr s userptr with
  | none => none
  | some _ =>
    match bitmap_delete s userptr with
    | none => none
    | some s1 => some (0, s1)

/-- The hook `post_nonnull_free`. -/
def post_nonnull_free (s : heap_state) (_userptr : Nat) : heap_state := s

/-- The hook `pre_nonnull_nonzero_realloc`. -/
def pre_nonnull_nonzero_realloc (s : heap_state) (userptr _size _caller : Nat) :
    Option heap_state :=
  match arena_for_userptr s userptr with
  | none => none
  | some _ => bitmap_delete s userptr

/-- The hook `post_nonnull_nonzero_realloc`.  Notifying the copy tracker has no
effect on the index. -/
def post_nonnull_nonzero_realloc (s : heap_state)
    (userptr modified_size old_usable_size caller new_allocptr : Nat) : Option heap_state :=
  let requested_size :=
    if s.current_allocsz ≠ 0 then s.current_allocsz
    else sub_uintptr modified_size SIZEOF_EXTENDED_INSERT
  let b := lookup_bigalloc_from_root s userptr allocator.generic_malloc
  let site := if s.current_allocsite ≠ 0 then s.current_allocsite else caller
  let reindexed : Option heap_state :=
    if new_allocptr ≠ 0 ∧ new_allocptr ≠ userptr then
      match arena_for_userptr s new_allocptr with
      | none => none
      | some _ => bitmap_insert s new_allocptr requested_size site
    else
      match arena_for_userptr s userptr with
      | none => none
      | some _ => bitmap_insert s userptr requested_size site
  match reindexed with
  | none => none
  | some s1 =>
    if new_allocptr = userptr ∧ modified_size < old_usable_size then
      match b with
      | some r => some (liballocs_truncate_bigalloc_at_end s1 r (userptr + modified_size))
      | none => some s1
    else some s1

/-! ## Reverse lookup and the metadata accessor -/

/-- The number of bits `lookup` hides from the backward search: zero in a debug
build, the words below the address minus `biggest_unpromoted_object` in an
`NDEBUG` build. -/
def nbits_hidden (ndebug : Bool) (s : heap_state) (info : arena_bitmap_info) (mem : Nat) : Nat :=
  if ndebug then
    let fake_bitmap_base_addr :=
      ROUND_DOWN_PTR (sub_uintptr mem s.biggest_unpromoted_object)
        (MALLOC_ALIGN * BITMAP_WORD_NBITS)
    if fake_bitmap_base_addr > info.bitmap_base_addr then
      BITMAP_WORD_NBITS *
        (sub_uintptr fake_bitmap_base_addr info.bitmap_base_addr
          / (MALLOC_ALIGN * BITMAP_WORD_NBITS))
    else 0
  else 0

/-- The function `lookup` (the arena argument is the arena of the state).  The
result is the object start and the address of its metadata record, an inner
`none` for `NULL`, and `none` when the arena has no store to read or the
assertion on the base address fails in a debug build (the assertion on
`nbits_hidden` cannot fail).  The start index is an `unsigned`. -/
def lookup (ndebug : Bool) (s : heap_state) (mem : Nat) : Option (Option (Nat × Nat)) :=
  match s.suballocator_private with
  | none => none
  | some info =>
    if !ndebug ∧
        info.bitmap_base_addr ≠ ROUND_DOWN_PTR s.arena_begin (MALLOC_ALIGN * BITMAP_WORD_NBITS)
    then none
    else
      let start_idx := sub_uintptr mem info.bitmap_base_addr / MALLOC_ALIGN % UNSIGNED_MOD
      let hidden := nbits_hidden ndebug s info mem
      match bitmap_rfind_first_set_leq_l info.bitmap (hidden / BITMAP_WORD_NBITS) info.nwords
          (sub_uintptr start_idx hidden) with
      | some found =>
        let object_start := info.bitmap_base_addr + MALLOC_ALIGN * (found + hidden)
        some (some (object_start, insert_for_chunk s object_start))
      | none => some none

/-- The function `lookup_object_info`: the metadata record, the object start and
the size `usersize` gives for it, or `NULL`.  Before the registry is
initialised it bails out; otherwise `lookup` dereferences the arena, which is
fatal for a null arena.  The deeper index is not compiled in and
`INSERT_DESCRIBES_OBJECT` is taken to hold of every record, so the record
found is the one returned. -/
def lookup_object_info (ndebug : Bool) (s : heap_state) (arena : Option Unit) (mem : Nat) :
    Option (Option (Nat × Nat × Nat)) :=
  if s.big_allocations_1_begin = 0 then some none
  else
    match arena with
    | none => none
    | some _ =>
      match lookup ndebug s mem with
      | none => none
      | some none => some none
      | some (some (l01_object_start, found)) =>
        if !ndebug ∧ l01_object_start = 0 then none
        else some (some (found, l01_object_start, usersize s l01_object_start))

/-- The bitmap branch of `__generic_malloc_get_info`: the arena is resolved
(the assertion of `arena_for_userptr` is fatal in a debug build), the object
is looked up, and the caller-visible size is derived from the usable size. -/
def get_info_by_lookup (ndebug : Bool) (s : heap_state) (obj : Nat) : Option get_info_result :=
  let arena := arena_for_userptr s obj
  if !ndebug ∧ arena = none then none
  else
    match lookup_object_info ndebug s arena obj with
    | none => none
    | some none => some get_info_result.unindexed_heap_object
    | some (some (heap_info, base, alloc_usable_chunksize)) =>
      if !ndebug ∧ base = 0 then none
      else
        some (get_info_result.no_error base
          (caller_usable_size_for_chunk_and_malloc_usable_size base alloc_usable_chunksize)
          heap_info (s.inserts heap_info))

/-- The function `__generic_malloc_get_info`, asked for the base, the size and
the site or type: `b` is the big allocation the caller already knows for
`obj`, if any.  When `b` was allocated by this allocator its bounds are used,
otherwise the bitmap branch runs. -/
def generic_malloc_get_info (ndebug : Bool) (s : heap_state) (obj : Nat)
    (b : Option big_allocation) : Option get_info_result :=
  match b with
  | some r =>
    if r.allocated_by = allocator.generic_malloc then
      let base := r.begin_addr
      let caller_usable_size := sub_uintptr r.end_addr r.begin_addr
      let heap_info := insert_for_chunk_and_caller_usable_size base
        (caller_usable_size + SIZEOF_EXTENDED_INSERT)
      some (get_info_result.no_error base caller_usable_size heap_info (s.inserts heap_info))
    else get_info_by_lookup ndebug s obj
  | none => get_info_by_lookup ndebug s obj

/-- The function `__generic_malloc_set_type`: the error returned and the state
left behind. -/
def generic_malloc_set_type (ndebug : Bool) (s : heap_state) (obj new_type : Nat) :
    Option (liballocs_err_t × heap_state) :=
  let arena := arena_for_userptr s obj
  if !ndebug ∧ arena = none then none
  else
    match lookup_object_info ndebug s arena obj with
    | none => none
    | some none => some (liballocs_err_t.unindexed_heap_object, s)
    | some (some (ins, _, _)) =>
      some (liballocs_err_t.NULL,
        { s with inserts := fun a =>
            if a = ins then { alloc_site_flag := 1, alloc_site := new_type } else s.inserts a })

/-- An arena `[arena_begin, arena_end)` before the first allocation: no store,
no records, marks at zero; `usable` is what the host allocator reports.  The
private allocator has only zeroed memory to hand out. -/
def initial_state (arena_begin arena_end : Nat) (usable : Nat → Nat) : heap_state :=
  { arena_begin := arena_begin
    arena_end := arena_end
    suballocator_private := none
    promoted := []
    inserts := fun _ => { alloc_site_flag := 0, alloc_site := 0 }
    malloc_usable_size := usable
    biggest_allocated_object := 0
    biggest_unpromoted_object := 0
    safe_to_call_malloc := 0
    current_allocsite := 0
    current_allocsz := 0
    big_allocations_1_begin := arena_begin
    private_memory := fun _ => false }

/-- A run of `post_successful_alloc`, one call per entry of the list, in order;
an entry gives the chunk address, the requested size and the caller.  The size
and alignment arguments the hook does not read are passed as 0. -/
def post_successful_allocs (s : heap_state) : List (Nat × Nat × Nat) → Option heap_state
  | [] => some s
  | c :: rest =>
    match post_successful_alloc s c.1 0 0 c.2.1 0 c.2.2 with
    | none => none
    | some s1 => post_successful_allocs s1 rest

/-! ## Observations on a state -/

/-- Whether the bitmap bit of the slot of `addr` is set in the arena's store. -/
def bitmap_bit_set (s : heap_state) (addr : Nat) : Bool :=
  match s.suballocator_private with
  | some info => info.bitmap (insert_bit_index info addr)
  | none => false

/-- The promotion record `bitmap_insert` creates for the chunk at `allocptr`. -/
def promotion_record (s : heap_state) (allocptr : Nat) : big_allocation :=
  { begin_addr := allocptr
    end_addr := allocptr +
      caller_usable_size_for_chunk_and_malloc_usable_size allocptr (s.malloc_usable_size allocptr)
    allocated_by := allocator.generic_malloc }

/-- The host allocator reports a new usable size for the chunk at `p`, as after
a reallocation in place. -/
def host_resize (s : heap_state) (p new_usable : Nat) : heap_state :=
  { s with malloc_usable_size := fun a => if a = p then new_usable else s.malloc_usable_size a }

/-- The store, when one is attached, is based where the arena starts, and the
arena ends at least one bitmap word of slots below the top of the address
space. -/
def store_consistent (s : heap_state) : Prop :=
  s.arena_end + MALLOC_ALIGN * BITMAP_WORD_NBITS ≤ UINTPTR_MOD ∧
  ∀ info, s.suballocator_private = some info →
    info.bitmap_base_addr = ROUND_DOWN_PTR s.arena_begin (MALLOC_ALIGN * BITMAP_WORD_NBITS)

/-- The index of the state agrees with the set `live` of chunk addresses
indexed so far: the store is consistent, every live chunk lies in the arena
and has its bit set inside the word sequence, every set bit is the bit of a
live chunk, `biggest_unpromoted_object` is at least the caller-visible
size of every live chunk that was not promoted, and the private allocator has
only zeroed memory to hand out. -/
def index_matches (s : heap_state) (live : Nat → Prop) : Prop :=
  store_consistent s ∧
  (∀ q, live q → s.arena_begin ≤ q ∧ q < s.arena_end ∧
    ∃ info, s.suballocator_private = some info ∧
      info.bitmap ((q - info.bitmap_base_addr) / MALLOC_ALIGN) = true ∧
      (q - info.bitmap_base_addr) / MALLOC_ALIGN < info.nwords * BITMAP_WORD_NBITS) ∧
  (∀ info, s.suballocator_private = some info → ∀ j, info.bitmap j = true →
    ∃ q, live q ∧ j = (q - info.bitmap_base_addr) / MALLOC_ALIGN) ∧
  (∀ q, live q → s.malloc_usable_size q ≤ PROMOTE_THRESHOLD →
    caller_usable_size_for_chunk_and_malloc_usable_size q (s.malloc_usable_size q)
      ≤ s.biggest_unpromoted_object) ∧
  (∀ j, s.private_memory j = false)

/-- The tracked-range assertions of `bitmap_insert`: the store is based where
the arena starts, and the address is not past the end of the bitmap's
coverage. -/
def tracked_range_assertions (s : heap_state) (info : arena_bitmap_info) (allocptr : Nat) :
    Bool :=
  decide (info.bitmap_base_addr = ROUND_DOWN_PTR s.arena_begin (MALLOC_ALIGN * BITMAP_WORD_NBITS))
    && decide (allocptr ≤
      info.bitmap_base_addr + info.nwords * MALLOC_ALIGN * BITMAP_WORD_NBITS)

/-- The chunk at `p` holds its metadata record: the host reports a usable size
of at least the record size (and a `size_t`). -/
def holds_record (s : heap_state) (p : Nat) : Prop :=
  SIZEOF_EXTENDED_INSERT ≤ s.malloc_usable_size p ∧ s.malloc_usable_size p < UINTPTR_MOD

/-- The states reached from an initial state (no store, both marks zero) by the
hooks of the lifecycle protocol.  Between two hooks the environment (the host
allocator, the registry, the thread-local context) may change the state in any
way that leaves the two marks alone.  `ok s p` is what is asked of the chunk
`p` that an inserting hook indexes in the state `s`. -/
inductive reachable (ok : heap_state → Nat → Prop) : heap_state → Prop
  | initial (arena_begin arena_end : Nat) (usable : Nat → Nat) :
      reachable ok (initial_state arena_begin arena_end usable)
  | environment {s s1 : heap_state} :
      reachable ok s →
      s1.biggest_allocated_object = s.biggest_allocated_object →
      s1.biggest_unpromoted_object = s.biggest_unpromoted_object →
      reachable ok s1
  | post_alloc {s s1 : heap_state} (p ms ma rs ra caller : Nat) :
      reachable ok s → ok s p →
      post_successful_alloc s p ms ma rs ra caller = some s1 →
      reachable ok s1
  | pre_free {s s1 : heap_state} (p usable veto : Nat) :
      reachable ok s → pre_nonnull_free s p usable = some (veto, s1) →
      reachable ok s1
  | post_free {s : heap_state} (p : Nat) :
      reachable ok s → reachable ok (post_nonnull_free s p)
  | pre_realloc {s s1 : heap_state} (p size caller : Nat) :
      reachable ok s → pre_nonnull_nonzero_realloc s p size caller = some s1 →
      reachable ok s1
  | post_realloc {s s1 : heap_state} (p ms old caller np : Nat) :
      reachable ok s → ok s (if np ≠ 0 ∧ np ≠ p then np else p) →
      post_nonnull_nonzero_realloc s p ms old caller np = some s1 →
      reachable ok s1

/-! ## Concrete scenarios -/

/-- A host allocator with a 32-byte chunk at `0x10400` and a 200008-byte chunk
at `0x11000`. -/
def demo_usable : Nat → Nat :=
  fun a => if a = 0x10400 then 32 else if a = 0x11000 then 200008 else 0

/-- The arena `[0x10000, 0x80000)` before its first allocation. -/
def demo_initial : heap_state := initial_state 0x10000 0x80000 demo_usable

/-- A host allocator with one 32-byte chunk 64 GiB above the arena start. -/
def far_usable : Nat → Nat := fun a => if a = 0x1000010000 then 32 else 0

/-- An arena of a little more than 64 GiB before its first allocation. -/
def far_initial : heap_state := initial_state 0x10000 0x1000020000 far_usable

/-- A host allocator with one chunk of usable size 131080 at `0x11000`. -/
def edge_usable : Nat → Nat := fun a => if a = 0x11000 then 131080 else 0

/-- The arena `[0x10000, 0x80000)` over `edge_usable`, before its first
allocation. -/
def edge_initial : heap_state := initial_state 0x10000 0x80000 edge_usable

/-- The arena `[0x10000, 0x80000)` with a store of 448 zero words attached and
nothing indexed. -/
def empty_store_state : heap_state :=
  { initial_state 0x10000 0x80000 demo_usable with
    suballocator_private :=
      some { nwords := 448, bitmap := fun _ => false, bitmap_base_addr := 0x10000 } }

/-- The promotion record of the 200008-byte chunk at `0x11000`. -/
def demo_record : big_allocation :=
  { begin_addr := 0x11000, end_addr := 0x11000 + 200000,
    allocated_by := allocator.generic_malloc }

/-- The state after `post_successful_alloc` has indexed and promoted the
200008-byte chunk at `0x11000`. -/
def demo_promoted_state : heap_state :=
  (post_successful_alloc demo_initial 0x11000 200008 16 200000 16 78).getD demo_initial

/-- The state after a run that indexes the 32-byte chunk at `0x10400` and then
the 200008-byte chunk at `0x11000`. -/
def demo_run_state : heap_state :=
  (post_successful_allocs demo_initial [(0x10400, 24, 77), (0x11000, 200000, 78)]).getD
    demo_initial

/-- The arena `[0x10000, 0x80000)` carrying the store of 64 words that served
it while it ended at `0x20000`; bit 5 is set. -/
def small_store_state : heap_state :=
  { initial_state 0x10000 0x80000 demo_usable with
    suballocator_private :=
      some { nwords := 64, bitmap := fun i => decide (i = 5), bitmap_base_addr := 0x10000 } }

/-- The state `small_store_state` over a private allocator whose memory holds
ones where the word sequence is extended (memory that was used before). -/
def recycled_store_state : heap_state :=
  { small_store_state with private_memory := fun _ => true }

/-- The arena after its begin has moved from `0x10000` up to `0x10400`: it
still carries the store that `check_arena_bitmap` attached for
`[0x10000, 0x20000)`. -/
def moved_arena_state : heap_state :=
  { check_arena_bitmap (initial_state 0x10000 0x20000 demo_usable) with arena_begin := 0x10400 }

/-- A host allocator with one 32-byte chunk at `0x80000`. -/
def coverage_end_usable : Nat → Nat := fun a => if a = 0x80000 then 32 else 0

/-- The arena `[0x10000, 0x80000)` over `coverage_end_usable`, with its store of
448 zero words attached: the bitmap covers `[0x10000, 0x80000)`. -/
def coverage_end_state : heap_state :=
  { initial_state 0x10000 0x80000 coverage_end_usable with
    suballocator_private :=
      some { nwords := 448, bitmap := fun _ => false, bitmap_base_addr := 0x10000 } }

/-- The store of `coverage_end_state`. -/
def coverage_end_info : arena_bitmap_info :=
  { nwords := 448, bitmap := fun _ => false, bitmap_base_addr := 0x10000 }

/-- A host allocator with a 32-byte chunk at `0x10400` and a chunk of usable
size 131072 at `0x20000`. -/
def low_usable : Nat → Nat :=
  fun a => if a = 0x10400 then 32 else if a = 0x20000 then 131072 else 0

/-- The state after a run that indexes both chunks of `low_usable` in the arena
`[0x10000, 0x80000)`; neither is promoted. -/
def low_run_state : heap_state :=
  (post_successful_allocs (initial_state 0x10000 0x80000 low_usable)
    [(0x10400, 24, 77), (0x20000, 131064, 78)]).getD (initial_state 0x10000 0x80000 low_usable)

/-- A host allocator with a 24-byte chunk at `0x10010` and a 32-byte chunk at
`0x10400`. -/
def pair_usable : Nat → Nat :=
  fun a => if a = 0x10010 then 24 else if a = 0x10400 then 32 else 0

/-- The arena `[0x10000, 0x80000)` over `pair_usable`, before its first
allocation. -/
def pair_initial : heap_state := initial_state 0x10000 0x80000 pair_usable

/-- The arena `[0x10000, 0x80000)` before its first allocation, over a host
allocator whose chunks have the usable size 0. -/
def tiny_initial : heap_state := initial_state 0x10000 0x80000 (fun _ => 0)


/-! ## Arithmetic of machine words -/

theorem sub_uintptr_of_le {a b : Nat} (hb : b ≤ a) (ha : a < UINTPTR_MOD) :
    sub_uintptr a b = a - b := by
  unfold sub_uintptr UINTPTR_MOD
  unfold UINTPTR_MOD at ha
  omega

/-! ## What `bitmap_insert` leaves behind -/

theorem check_arena_bitmap_frame (s : heap_state) :
    (check_arena_bitmap s).arena_begin = s.arena_begin ∧
    (check_arena_bitmap s).arena_end = s.arena_end ∧
    (check_arena_bitmap s).promoted = s.promoted ∧
    (check_arena_bitmap s).inserts = s.inserts ∧
    (check_arena_bitmap s).malloc_usable_size = s.malloc_usable_size ∧
    (check_arena_bitmap s).biggest_allocated_object = s.biggest_allocated_object ∧
    (check_arena_bitmap s).biggest_unpromoted_object = s.biggest_unpromoted_object ∧
    (check_arena_bitmap s).current_allocsite = s.current_allocsite ∧
    (check_arena_bitmap s).current_allocsz = s.current_allocsz ∧
    (check_arena_bitmap s).big_allocations_1_begin = s.big_allocations_1_begin := by
  unfold check_arena_bitmap
  simp only []
  split <;> simp

theorem bitmap_insert_metadata_some {s1 s4 : heap_state} {p r c : Nat}
    (h : bitmap_insert_metadata s1 p r c = some s4) :
    s4.suballocator_private = s1.suballocator_private ∧
    s4.inserts = (fun a => if a = insert_for_chunk s1 p then
        { alloc_site_flag := 0, alloc_site := c } else s1.inserts a) ∧
    s4.malloc_usable_size = s1.malloc_usable_size ∧
    s4.arena_begin = s1.arena_begin ∧ s4.arena_end = s1.arena_end ∧
    s4.big_allocations_1_begin = s1.big_allocations_1_begin ∧
    s4.biggest_allocated_object =
      MAX (caller_usable_size_for_chunk_and_malloc_usable_size p (s1.malloc_usable_size p))
        s1.biggest_allocated_object ∧
    (if s1.malloc_usable_size p > PROMOTE_THRESHOLD then
        s4.promoted = promotion_record s1 p :: s1.promoted ∧
        s4.biggest_unpromoted_object = s1.biggest_unpromoted_object
      else
        s4.promoted = s1.promoted ∧
        s4.biggest_unpromoted_object =
          MAX (caller_usable_size_for_chunk_and_malloc_usable_size p (s1.malloc_usable_size p))
            s1.biggest_unpromoted_object) := by
  unfold bitmap_insert_metadata at h
  by_cases hp : s1.malloc_usable_size p > PROMOTE_THRESHOLD
  · simp only [SHOULD_PROMOTE_TO_BIGALLOC, hp, decide_True, if_true] at h
    split at h
    · simp only [Option.some.injEq] at h
      subst h
      simp [fresh_big, insert_for_chunk, promotion_record, hp]
    · exact absurd h (by simp)
  · simp only [SHOULD_PROMOTE_TO_BIGALLOC, hp, decide_False, Bool.false_eq_true, if_false,
      Option.some.injEq] at h
    subst h
    simp [insert_for_chunk, hp]

theorem bitmap_insert_some {s s' : heap_state} {p r c : Nat}
    (h : bitmap_insert s p r c = some s') :
    ∃ info info1,
      (check_arena_bitmap s).suballocator_private = some info ∧
      info.bitmap_base_addr = ROUND_DOWN_PTR s.arena_begin (MALLOC_ALIGN * BITMAP_WORD_NBITS) ∧
      bitmap_set_l info (insert_bit_index info p) = some info1 ∧
      s'.suballocator_private = some info1 ∧
      s'.inserts = (fun a => if a = insert_for_chunk s p then
          { alloc_site_flag := 0, alloc_site := c } else s.inserts a) ∧
      s'.malloc_usable_size = s.malloc_usable_size ∧
      s'.arena_begin = s.arena_begin ∧ s'.arena_end = s.arena_end ∧
      s'.big_allocations_1_begin = s.big_allocations_1_begin ∧
      s'.biggest_allocated_object =
        MAX (caller_usable_size_for_chunk_and_malloc_usable_size p (s.malloc_usable_size p))
          s.biggest_allocated_object ∧
      (if s.malloc_usable_size p > PROMOTE_THRESHOLD then
          s'.promoted = promotion_record s p :: s.promoted ∧
          s'.biggest_unpromoted_object = s.biggest_unpromoted_object
        else
          s'.promoted = s.promoted ∧
          s'.biggest_unpromoted_object =
            MAX (caller_usable_size_for_chunk_and_malloc_usable_size p (s.malloc_usable_size p))
              s.biggest_unpromoted_object) := by
  obtain ⟨f1, f2, f3, f4, f5, f6, f7, f8, f9, f10⟩ := check_arena_bitmap_frame s
  unfold bitmap_insert at h
  simp only [] at h
  split at h
  · exact absurd h (by simp)
  · rename_i info hinfo
    split at h
    · exact absurd h (by simp)
    · rename_i hbase
      split at h
      · exact absurd h (by simp)
      · split at h
        · exact absurd h (by simp)
        · rename_i s4 hs4
          split at h
          · exact absurd h (by simp)
          · rename_i info1 hset
            simp only [Option.some.injEq] at h
            subst h
            obtain ⟨g1, g2, g3, g4, g5, g6, g7, g8⟩ := bitmap_insert_metadata_some hs4
            refine ⟨info, info1, hinfo, ?_, hset, rfl, ?_, ?_, ?_, ?_, ?_, ?_, ?_⟩
            · rw [← f1]; exact not_not.mp hbase
            · simp only [g2, insert_for_chunk, f4, f5]
            · simp only [g3, f5]
            · simp only [g4, f1]
            · simp only [g5, f2]
            · simp only [g6, f10]
            · simp only [g7, f5, f6]
            · simp only [f5, f3, f7, promotion_record] at g8
              simpa only [promotion_record] using g8

theorem bitmap_insert_private_memory {s s1 : heap_state} {p r c : Nat}
    (h : bitmap_insert s p r c = some s1) : s1.private_memory = s.private_memory := by
  have f : (check_arena_bitmap s).private_memory = s.private_memory := by
    unfold check_arena_bitmap
    simp only []
    split <;> rfl
  unfold bitmap_insert at h
  simp only [] at h
  split at h
  · exact absurd h (by simp)
  · split at h
    · exact absurd h (by simp)
    · split at h
      · exact absurd h (by simp)
      · split at h
        · exact absurd h (by simp)
        · rename_i s4 hs4
          split at h
          · exact absurd h (by simp)
          · simp only [Option.some.injEq] at h
            subst h
            have g : s4.private_memory = (check_arena_bitmap s).private_memory := by
              unfold bitmap_insert_metadata at hs4
              simp only [] at hs4
              split at hs4
              · split at hs4
                · simp only [Option.some.injEq] at hs4
                  subst hs4
                  rfl
                · exact absurd hs4 (by simp)
              · simp only [Option.some.injEq] at hs4
                subst hs4
                rfl
            exact g.trans f

theorem bitmap_set_l_some {info info1 : arena_bitmap_info} {i : Nat}
    (h : bitmap_set_l info i = some info1) :
    i < info.nwords * BITMAP_WORD_NBITS ∧ info1.nwords = info.nwords ∧
    info1.bitmap_base_addr = info.bitmap_base_addr ∧
    info1.bitmap = (fun j => if j = i then true else info.bitmap j) := by
  unfold bitmap_set_l at h
  split at h
  · simp only [Option.some.injEq] at h
    subst h
    exact ⟨by assumption, rfl, rfl, rfl⟩
  · exact absurd h (by simp)

theorem bitmap_insert_sets_bit {s s' : heap_state} {p r c : Nat}
    (h : bitmap_insert s p r c = some s') : bitmap_bit_set s' p = true := by
  obtain ⟨info, info1, _, _, hset, hpriv, _⟩ := bitmap_insert_some h
  obtain ⟨_, _, hb, hbits⟩ := bitmap_set_l_some hset
  simp [bitmap_bit_set, hpriv, hbits, insert_bit_index, hb]


theorem check_arena_bitmap_store {s : heap_state} (hc : store_consistent s)
    (hne : s.arena_begin < s.arena_end) :
    ∃ info, (check_arena_bitmap s).suballocator_private = some info ∧
      info.bitmap_base_addr = ROUND_DOWN_PTR s.arena_begin (MALLOC_ALIGN * BITMAP_WORD_NBITS) ∧
      s.arena_end ≤ info.bitmap_base_addr + info.nwords * MALLOC_ALIGN * BITMAP_WORD_NBITS := by
  obtain ⟨hend, hbase⟩ := hc
  have hsub : sub_uintptr (ROUND_UP_PTR s.arena_end (MALLOC_ALIGN * BITMAP_WORD_NBITS))
      (ROUND_DOWN_PTR s.arena_begin (MALLOC_ALIGN * BITMAP_WORD_NBITS))
      = ROUND_UP_PTR s.arena_end (MALLOC_ALIGN * BITMAP_WORD_NBITS)
        - ROUND_DOWN_PTR s.arena_begin (MALLOC_ALIGN * BITMAP_WORD_NBITS) := by
    apply sub_uintptr_of_le
    · simp only [ROUND_UP_PTR, ROUND_DOWN_PTR, MALLOC_ALIGN, BITMAP_WORD_NBITS]
      omega
    · simp only [ROUND_UP_PTR, MALLOC_ALIGN, BITMAP_WORD_NBITS] at hend ⊢
      unfold UINTPTR_MOD at hend ⊢
      omega
  unfold check_arena_bitmap
  simp only [hsub]
  split
  · rename_i hgrow
    refine ⟨_, rfl, rfl, ?_⟩
    simp only [ROUND_UP_PTR, ROUND_DOWN_PTR, MALLOC_ALIGN, BITMAP_WORD_NBITS]
    omega
  · rename_i hgrow
    cases hp : s.suballocator_private with
    | none =>
      exfalso
      simp only [hp, ROUND_UP_PTR, ROUND_DOWN_PTR, MALLOC_ALIGN, BITMAP_WORD_NBITS] at hgrow
      omega
    | some i =>
      refine ⟨i, rfl, hbase i hp, ?_⟩
      simp only [hp, ROUND_UP_PTR, ROUND_DOWN_PTR, MALLOC_ALIGN, BITMAP_WORD_NBITS] at hgrow
      rw [hbase i hp]
      simp only [ROUND_DOWN_PTR, MALLOC_ALIGN, BITMAP_WORD_NBITS]
      omega

theorem bitmap_insert_returns {s : heap_state} {p r c : Nat} (hc : store_consistent s)
    (hlo : s.arena_begin ≤ p) (hhi : p < s.arena_end)
    (hreq : s.malloc_usable_size p > PROMOTE_THRESHOLD →
      r ≤ sub_uintptr (s.malloc_usable_size p) SIZEOF_INSERT) :
    ∃ s', bitmap_insert s p r c = some s' := by
  obtain ⟨info, hinfo, hb, hcover⟩ := check_arena_bitmap_store hc (by omega)
  obtain ⟨f1, f2, f3, f4, f5, f6, f7, f8, f9, f10⟩ := check_arena_bitmap_frame s
  have hend := hc.1
  have hmeta : ∃ s4, bitmap_insert_metadata (check_arena_bitmap s) p r c = some s4 := by
    unfold bitmap_insert_metadata
    simp only [f5, SHOULD_PROMOTE_TO_BIGALLOC]
    by_cases hp : s.malloc_usable_size p > PROMOTE_THRESHOLD
    · simp [hp, hreq hp]
    · simp [hp]
  obtain ⟨s4, hs4⟩ := hmeta
  have hble : info.bitmap_base_addr ≤ p := by
    rw [hb]
    simp only [ROUND_DOWN_PTR, MALLOC_ALIGN, BITMAP_WORD_NBITS]
    omega
  have hidx : insert_bit_index info p < info.nwords * BITMAP_WORD_NBITS := by
    unfold insert_bit_index
    rw [sub_uintptr_of_le hble (by simp only [MALLOC_ALIGN, BITMAP_WORD_NBITS] at hend; omega)]
    simp only [MALLOC_ALIGN, BITMAP_WORD_NBITS] at hcover ⊢
    omega
  unfold bitmap_insert
  simp only [hinfo, f1, hb, ne_eq, not_true_eq_false, if_false, hs4]
  rw [if_neg (by rw [← hb]; omega)]
  simp [bitmap_set_l, hidx]


theorem post_successful_alloc_some {s s' : heap_state} {p ms ma rs ra caller : Nat}
    (h : post_successful_alloc s p ms ma rs ra caller = some s') :
    s.arena_begin ≤ p ∧ p < s.arena_end ∧
    ∃ s1, bitmap_insert s p rs
        (if s.current_allocsite ≠ 0 then s.current_allocsite else caller) = some s1 ∧
      s' = { s1 with safe_to_call_malloc := 1 } := by
  unfold post_successful_alloc at h
  split at h
  · exact absurd h (by simp)
  · rename_i harena
    have hin : s.arena_begin ≤ p ∧ p < s.arena_end := by
      unfold arena_for_userptr at harena
      split at harena
      · assumption
      · exact absurd harena (by simp)
    split at h
    · exact absurd h (by simp)
    · rename_i s1 hs1
      simp only [Option.some.injEq] at h
      exact ⟨hin.1, hin.2, s1, hs1, h.symm⟩

theorem post_successful_alloc_returns {s : heap_state} {p rs : Nat} (ms ma ra caller : Nat)
    (hc : store_consistent s) (hlo : s.arena_begin ≤ p) (hhi : p < s.arena_end)
    (hreq : s.malloc_usable_size p > PROMOTE_THRESHOLD →
      rs ≤ sub_uintptr (s.malloc_usable_size p) SIZEOF_INSERT) :
    ∃ s', post_successful_alloc s p ms ma rs ra caller = some s' := by
  obtain ⟨s1, hs1⟩ := bitmap_insert_returns
    (c := if s.current_allocsite ≠ 0 then s.current_allocsite else caller) hc hlo hhi hreq
  unfold post_successful_alloc arena_for_userptr
  simp only [hlo, hhi, and_self, if_true, hs1]
  exact ⟨_, rfl⟩

/-- C9: whenever `post_successful_alloc` returns, the metadata record of the
chunk has its type flag cleared and holds the thread-local allocation site if
that is non-null, else the caller address; and the hook does return for every
chunk inside an arena whose store is consistent. -/
theorem post_successful_alloc_writes_metadata (s : heap_state)
    (p ms ma rs ra caller : Nat) :
    (∀ s', post_successful_alloc s p ms ma rs ra caller = some s' →
      (s'.inserts (insert_for_chunk s' p)).alloc_site_flag = 0 ∧
      (s'.inserts (insert_for_chunk s' p)).alloc_site =
        (if s.current_allocsite ≠ 0 then s.current_allocsite else caller)) ∧
    (store_consistent s → s.arena_begin ≤ p → p < s.arena_end →
      (s.malloc_usable_size p > PROMOTE_THRESHOLD →
        rs ≤ sub_uintptr (s.malloc_usable_size p) SIZEOF_INSERT) →
      ∃ s', post_successful_alloc s p ms ma rs ra caller = some s') := by
  refine ⟨?_, fun hc hlo hhi hreq => post_successful_alloc_returns ms ma ra caller hc hlo hhi hreq⟩
  intro s' h
  obtain ⟨_, _, s1, hs1, rfl⟩ := post_successful_alloc_some h
  obtain ⟨info, info1, _, _, _, _, hins, hus, _⟩ := bitmap_insert_some hs1
  simp only [insert_for_chunk, hus, hins, if_true, and_self]

/-- C9, at a concrete call: a 32-byte chunk at `0x10400` allocated from the
caller `77` with no thread-local site. -/
theorem post_successful_alloc_writes_metadata_witness :
    ∃ s', post_successful_alloc demo_initial 0x10400 32 16 24 16 77 = some s' ∧
      (s'.inserts (insert_for_chunk s' 0x10400)).alloc_site_flag = 0 ∧
      (s'.inserts (insert_for_chunk s' 0x10400)).alloc_site = 77 := by
  obtain ⟨h1, h2⟩ := post_successful_alloc_writes_metadata demo_initial 0x10400 32 16 24 16 77
  obtain ⟨s', hs'⟩ := h2 ⟨by decide!, fun i hi => by cases hi⟩ (by decide!) (by decide!)
    (fun _ => by decide!)
  exact ⟨s', hs', h1 s' hs'⟩


/-- C1: a 32-byte chunk 64 GiB above the bitmap base is indexed by
`post_successful_alloc` (its bit is set), yet `lookup` at its base reports no
object: the slot index `2 ^ 32` does not fit the `unsigned` start index and the
backward search starts from slot 0. -/
theorem lookup_far_chunk_not_found :
    (post_successful_alloc far_initial 0x1000010000 32 16 24 16 77).map
      (fun s => (bitmap_bit_set s 0x1000010000, lookup false s 0x1000010000))
      = some (true, some none) := by
  decide!

/-- C2: a 32-byte chunk at `0x10400` is indexed and then passed to
`pre_nonnull_free`; the hook returns 0, and `lookup` at the chunk's base still
reports the chunk, in the debug and in the `NDEBUG` build: `bitmap_delete`
cleared bit 1, not bit 64. -/
theorem pre_nonnull_free_leaves_chunk_indexed :
    (post_successful_alloc demo_initial 0x10400 32 16 24 16 77).bind
      (fun s => (pre_nonnull_free s 0x10400 32).map
        (fun r => (r.1, bitmap_bit_set r.2 0x10400)))
      = some (0, true) ∧
    (post_successful_alloc demo_initial 0x10400 32 16 24 16 77).bind
      (fun s => (pre_nonnull_free s 0x10400 32).map
        (fun r => (lookup false r.2 0x10400, lookup true r.2 0x10400)))
      = some (some (some (0x10400, 0x10418)), some (some (0x10400, 0x10418))) := by
  decide!

/-- C3, as stated, fails: after `post_successful_alloc` of a chunk of usable
size 200008 the chunk has a promotion record and its bitmap bit is set. -/
theorem promoted_chunk_is_also_bitmap_indexed :
    (post_successful_alloc demo_initial 0x11000 200008 16 200000 16 78).map
      (fun s => (s.promoted, bitmap_bit_set s 0x11000))
      = some ([{ begin_addr := 0x11000, end_addr := 0x11000 + 200000,
                 allocated_by := allocator.generic_malloc }], true) := by
  decide!

/-- C3, amended: whenever `post_successful_alloc` returns for a chunk whose
host usable size exceeds the promotion threshold, a promotion record covering
the caller-visible bytes of the chunk has been created and the bitmap bit of
the chunk's start is set as well; and the hook does return for every such
chunk inside an arena whose store is consistent. -/
theorem post_successful_alloc_promotes_and_sets_bit (s : heap_state)
    (p ms ma rs ra caller : Nat) :
    (∀ s', post_successful_alloc s p ms ma rs ra caller = some s' →
      s.malloc_usable_size p > PROMOTE_THRESHOLD →
      s'.promoted = promotion_record s p :: s.promoted ∧ bitmap_bit_set s' p = true) ∧
    (store_consistent s → s.arena_begin ≤ p → p < s.arena_end →
      s.malloc_usable_size p > PROMOTE_THRESHOLD →
      rs ≤ sub_uintptr (s.malloc_usable_size p) SIZEOF_INSERT →
      ∃ s', post_successful_alloc s p ms ma rs ra caller = some s') := by
  refine ⟨?_, fun hc hlo hhi _ hreq =>
    post_successful_alloc_returns ms ma ra caller hc hlo hhi (fun _ => hreq)⟩
  intro s' h hbig
  obtain ⟨_, _, s1, hs1, rfl⟩ := post_successful_alloc_some h
  have hbit := bitmap_insert_sets_bit hs1
  obtain ⟨info, info1, _, _, _, _, _, _, _, _, _, _, hprom⟩ := bitmap_insert_some hs1
  rw [if_pos hbig] at hprom
  exact ⟨hprom.1, hbit⟩

/-- C3, amended, at a concrete call: the 200008-byte chunk at `0x11000`. -/
theorem post_successful_alloc_promotes_and_sets_bit_witness :
    ∃ s', post_successful_alloc demo_initial 0x11000 200008 16 200000 16 78 = some s' ∧
      s'.promoted = promotion_record demo_initial 0x11000 :: demo_initial.promoted ∧
      bitmap_bit_set s' 0x11000 = true := by
  obtain ⟨h1, h2⟩ :=
    post_successful_alloc_promotes_and_sets_bit demo_initial 0x11000 200008 16 200000 16 78
  obtain ⟨s', hs'⟩ := h2 ⟨by decide!, fun i hi => by cases hi⟩ (by decide!) (by decide!)
    (by decide!) (by decide!)
  exact ⟨s', hs', h1 s' hs' (by decide!)⟩

/-- C4, as stated, fails: a chunk of host usable size 131080 has the
caller-visible size 131072, which does not exceed the threshold, and
`post_successful_alloc` creates a promotion record for it all the same. -/
theorem promotion_tests_host_usable_size :
    caller_usable_size_for_chunk_and_malloc_usable_size 0x11000 (edge_usable 0x11000)
      ≤ PROMOTE_THRESHOLD ∧
    (post_successful_alloc edge_initial 0x11000 131080 16 131072 16 78).map
      (fun s => s.promoted)
      = some [{ begin_addr := 0x11000, end_addr := 0x11000 + 131072,
                allocated_by := allocator.generic_malloc }] := by
  decide!

/-- C4, amended: whenever `post_successful_alloc` returns, it has created a
promotion record if and only if the host usable size of the chunk exceeds
131072; when the host usable size is at most 131072 the records are as before,
`biggest_unpromoted_object` is raised to the caller-visible size if that is
larger, and the bitmap bit of the chunk is set; and the hook does return for
every chunk inside an arena whose store is consistent. -/
theorem post_successful_alloc_promotion_decision (s : heap_state)
    (p ms ma rs ra caller : Nat) :
    (∀ s', post_successful_alloc s p ms ma rs ra caller = some s' →
      (s.malloc_usable_size p > PROMOTE_THRESHOLD →
        s'.promoted = promotion_record s p :: s.promoted) ∧
      (s.malloc_usable_size p ≤ PROMOTE_THRESHOLD →
        s'.promoted = s.promoted ∧
        s'.biggest_unpromoted_object =
          MAX (caller_usable_size_for_chunk_and_malloc_usable_size p (s.malloc_usable_size p))
            s.biggest_unpromoted_object ∧
        bitmap_bit_set s' p = true)) ∧
    (store_consistent s → s.arena_begin ≤ p → p < s.arena_end →
      (s.malloc_usable_size p > PROMOTE_THRESHOLD →
        rs ≤ sub_uintptr (s.malloc_usable_size p) SIZEOF_INSERT) →
      ∃ s', post_successful_alloc s p ms ma rs ra caller = some s') := by
  refine ⟨?_, fun hc hlo hhi hreq => post_successful_alloc_returns ms ma ra caller hc hlo hhi hreq⟩
  intro s' h
  obtain ⟨_, _, s1, hs1, rfl⟩ := post_successful_alloc_some h
  have hbit := bitmap_insert_sets_bit hs1
  obtain ⟨info, info1, _, _, _, _, _, _, _, _, _, _, hprom⟩ := bitmap_insert_some hs1
  constructor
  · intro hbig
    rw [if_pos hbig] at hprom
    exact hprom.1
  · intro hsmall
    rw [if_neg (by omega)] at hprom
    exact ⟨hprom.1, hprom.2, hbit⟩

/-- C4, amended, at a concrete call: the 32-byte chunk at `0x10400` stays
unpromoted. -/
theorem post_successful_alloc_promotion_decision_witness :
    ∃ s', post_successful_alloc demo_initial 0x10400 32 16 24 16 77 = some s' ∧
      s'.promoted = demo_initial.promoted ∧
      s'.biggest_unpromoted_object =
        MAX (caller_usable_size_for_chunk_and_malloc_usable_size 0x10400
          (demo_initial.malloc_usable_size 0x10400)) demo_initial.biggest_unpromoted_object ∧
      bitmap_bit_set s' 0x10400 = true := by
  obtain ⟨h1, h2⟩ :=
    post_successful_alloc_promotion_decision demo_initial 0x10400 32 16 24 16 77
  obtain ⟨s', hs'⟩ := h2 ⟨by decide!, fun i hi => by cases hi⟩ (by decide!) (by decide!)
    (fun _ => by decide!)
  exact ⟨s', hs', (h1 s' hs').2 (by decide!)⟩


/-- C10: when the big allocation handed to `__generic_malloc_get_info` was
allocated by the generic malloc allocator, the call reports the record's begin
as base and `end - begin` as size, and its result is the same whatever bitmap
store the arena has. -/
theorem get_info_uses_promotion_record (ndebug : Bool) (s : heap_state) (obj : Nat)
    (r : big_allocation) (hby : r.allocated_by = allocator.generic_malloc)
    (hle : r.begin_addr ≤ r.end_addr) (hend : r.end_addr < UINTPTR_MOD) :
    (∃ heap_info, generic_malloc_get_info ndebug s obj (some r) =
      some (get_info_result.no_error r.begin_addr (r.end_addr - r.begin_addr) heap_info
        (s.inserts heap_info))) ∧
    ∀ store, generic_malloc_get_info ndebug { s with suballocator_private := store } obj (some r)
      = generic_malloc_get_info ndebug s obj (some r) := by
  constructor
  · refine ⟨insert_for_chunk_and_caller_usable_size r.begin_addr
      (r.end_addr - r.begin_addr + SIZEOF_EXTENDED_INSERT), ?_⟩
    simp only [generic_malloc_get_info, hby, if_true, sub_uintptr_of_le hle hend]
  · intro store
    simp only [generic_malloc_get_info, hby, if_true]

/-- C10, at a concrete query: the record of the 200008-byte chunk, asked about
an interior address. -/
theorem get_info_uses_promotion_record_witness :
    (∃ heap_info, generic_malloc_get_info false demo_initial 0x11010 (some demo_record) =
      some (get_info_result.no_error demo_record.begin_addr
        (demo_record.end_addr - demo_record.begin_addr) heap_info
        (demo_initial.inserts heap_info))) ∧
    ∀ store, generic_malloc_get_info false
        { demo_initial with suballocator_private := store } 0x11010 (some demo_record)
      = generic_malloc_get_info false demo_initial 0x11010 (some demo_record) :=
  get_info_uses_promotion_record false demo_initial 0x11010 demo_record rfl (by decide)
    (by decide!)


/-- C5: for the request `2 ^ 64 - 1`, `pre_alloc` returns the size 8; the host
chunk at `0x10400` with usable size 32 satisfies it and is indexed, and
`__generic_malloc_get_info` on its base reports the caller-visible size 24,
far below the request. -/
theorem get_info_size_below_wrapped_request :
    pre_alloc 18446744073709551615 16 77 = some (8, 16) ∧
    8 ≤ demo_usable 0x10400 ∧
    (post_successful_alloc demo_initial 0x10400 8 16 18446744073709551615 16 77).bind
      (fun s => generic_malloc_get_info false s 0x10400 none)
      = some (get_info_result.no_error 0x10400 24 0x10418
          { alloc_site_flag := 0, alloc_site := 77 }) := by
  decide!

/-- C6: the 200008-byte chunk at `0x11000` is promoted, `__generic_malloc_set_type`
with the type `555` succeeds on it, and `__generic_malloc_get_info` reached
through the promotion record then reads the record at `0x11000 + 200008`, not
the one at `0x11000 + 200000` that was written: it reports flag 0 and value 0. -/
theorem get_info_through_record_misses_set_type :
    (post_successful_alloc demo_initial 0x11000 200008 16 200000 16 78).bind
      (fun s => (generic_malloc_set_type false s 0x11000 555).bind
        (fun r => (generic_malloc_get_info false r.2 0x11000
            (lookup_bigalloc_from_root r.2 0x11000 allocator.generic_malloc)).map
          (fun g => (r.1, insert_for_chunk r.2 0x11000, r.2.inserts (0x11000 + 200000), g))))
      = some (liballocs_err_t.NULL, 0x11000 + 200000,
          { alloc_site_flag := 1, alloc_site := 555 },
          get_info_result.no_error 0x11000 200000 (0x11000 + 200008)
            { alloc_site_flag := 0, alloc_site := 0 }) := by
  decide!


/-! ## The backward search -/

theorem bitmap_rfind_none (bitmap : Nat → Bool) (p_bitmap p_limit : Nat) :
    ∀ n, (∀ i, i ≤ n → bitmap (p_bitmap * BITMAP_WORD_NBITS + i) = false) →
      bitmap_rfind_first_set_leq_l bitmap p_bitmap p_limit n = none := by
  intro n
  induction n with
  | zero =>
    intro h
    have h0 := h 0 (le_refl 0)
    simp only [Nat.add_zero] at h0
    simp [bitmap_rfind_first_set_leq_l, h0]
  | succ n ih =>
    intro h
    have hn := h (n + 1) (le_refl _)
    rw [bitmap_rfind_first_set_leq_l]
    rw [if_neg (by simp [hn])]
    exact ih (fun i hi => h i (by omega))

theorem lookup_scan_window (ndebug : Bool) (s : heap_state) (info : arena_bitmap_info)
    (mem : Nat) (hmem : mem < UINTPTR_MOD) (hbase : info.bitmap_base_addr ≤ mem)
    (hnd : ndebug = true → s.biggest_unpromoted_object ≤ mem ∧
      (mem - info.bitmap_base_addr) / MALLOC_ALIGN < UNSIGNED_MOD) :
    nbits_hidden ndebug s info mem / BITMAP_WORD_NBITS * BITMAP_WORD_NBITS
        + sub_uintptr (sub_uintptr mem info.bitmap_base_addr / MALLOC_ALIGN % UNSIGNED_MOD)
            (nbits_hidden ndebug s info mem)
      ≤ (mem - info.bitmap_base_addr) / MALLOC_ALIGN := by
  rw [sub_uintptr_of_le hbase hmem]
  cases ndebug with
  | false =>
    have h0 : nbits_hidden false s info mem = 0 := by simp [nbits_hidden]
    rw [h0]
    unfold sub_uintptr
    unfold UINTPTR_MOD UNSIGNED_MOD BITMAP_WORD_NBITS MALLOC_ALIGN
    omega
  | true =>
    obtain ⟨hbup, hidx⟩ := hnd rfl
    have hfake : sub_uintptr mem s.biggest_unpromoted_object = mem - s.biggest_unpromoted_object :=
      sub_uintptr_of_le hbup hmem
    unfold nbits_hidden
    simp only [if_true, hfake]
    split
    · rename_i hgt
      rw [sub_uintptr_of_le (le_of_lt hgt) (by
        unfold ROUND_DOWN_PTR MALLOC_ALIGN BITMAP_WORD_NBITS
        unfold UINTPTR_MOD at hmem ⊢
        omega)]
      unfold sub_uintptr
      unfold ROUND_DOWN_PTR at hgt ⊢
      unfold UINTPTR_MOD at hmem ⊢
      unfold UNSIGNED_MOD at hidx ⊢
      unfold BITMAP_WORD_NBITS MALLOC_ALIGN at *
      omega
    · unfold sub_uintptr
      unfold UINTPTR_MOD UNSIGNED_MOD BITMAP_WORD_NBITS MALLOC_ALIGN
      omega

theorem lookup_none_of_clear (ndebug : Bool) (s : heap_state) (info : arena_bitmap_info)
    (mem : Nat) (hstore : s.suballocator_private = some info)
    (hcons : info.bitmap_base_addr =
      ROUND_DOWN_PTR s.arena_begin (MALLOC_ALIGN * BITMAP_WORD_NBITS))
    (hmem : mem < UINTPTR_MOD) (hin : s.arena_begin ≤ mem)
    (hnd : ndebug = true → s.biggest_unpromoted_object ≤ mem ∧
      (mem - info.bitmap_base_addr) / MALLOC_ALIGN < UNSIGNED_MOD)
    (hclear : ∀ j, j ≤ (mem - info.bitmap_base_addr) / MALLOC_ALIGN → info.bitmap j = false) :
    lookup ndebug s mem = some none := by
  have hbase : info.bitmap_base_addr ≤ mem := by
    rw [hcons]
    unfold ROUND_DOWN_PTR MALLOC_ALIGN BITMAP_WORD_NBITS
    omega
  have hwin := lookup_scan_window ndebug s info mem hmem hbase hnd
  unfold lookup
  simp only [hstore, hcons, ne_eq, not_true_eq_false, and_false, if_false]
  rw [← hcons]
  rw [bitmap_rfind_none]
  intro i hi
  exact hclear _ (by omega)

/-- C7, as stated, fails.  The chunk `[0x10400, 0x10420)` is the only one
indexed in the arena `[0x10000, 0x80000)`.  For `0x90000`, which lies in no
arena, `__generic_malloc_get_info` and `__generic_malloc_set_type` end in the
failed assertion of `arena_for_userptr` instead of returning the error.  For
`0x10800`, which lies in the arena past the end of the chunk and so is covered
by no bitmap entry, the backward search stops at the bit of `0x10400`: in both
builds `__generic_malloc_get_info` reports that chunk, and
`__generic_malloc_set_type` returns no error and overwrites its metadata
record at `0x10418`.  For `0x10200` in the same arena before a store is
attached, and in the arena whose store has a stale base address, the calls are
fatal too. -/
theorem unindexed_address_not_reported :
    (post_successful_alloc demo_initial 0x10400 32 16 24 16 77).map
      (fun s => (generic_malloc_get_info false s 0x90000 none,
        (generic_malloc_set_type false s 0x90000 555).isNone))
      = some (none, true) ∧
    (post_successful_alloc demo_initial 0x10400 32 16 24 16 77).map
      (fun s => (bitmap_bit_set s 0x10800, s.malloc_usable_size 0x10400,
        (lookup_bigalloc_under s 0x10800 allocator.generic_malloc).isNone))
      = some (false, 32, true) ∧
    (post_successful_alloc demo_initial 0x10400 32 16 24 16 77).map
      (fun s => generic_malloc_get_info false s 0x10800 none)
      = some (some (get_info_result.no_error 0x10400 24 0x10418
          { alloc_site_flag := 0, alloc_site := 77 })) ∧
    (post_successful_alloc demo_initial 0x10400 32 16 24 16 77).map
      (fun s => generic_malloc_get_info true s 0x10800 none)
      = some (some (get_info_result.no_error 0x10400 24 0x10418
          { alloc_site_flag := 0, alloc_site := 77 })) ∧
    (post_successful_alloc demo_initial 0x10400 32 16 24 16 77).map
      (fun s => (generic_malloc_set_type false s 0x10800 555).map
        (fun r => (r.1, r.2.inserts 0x10418)))
      = some (some (liballocs_err_t.NULL, { alloc_site_flag := 1, alloc_site := 555 })) ∧
    (post_successful_alloc demo_initial 0x10400 32 16 24 16 77).map
      (fun s => (generic_malloc_set_type true s 0x10800 555).map
        (fun r => (r.1, r.2.inserts 0x10418)))
      = some (some (liballocs_err_t.NULL, { alloc_site_flag := 1, alloc_site := 555 })) ∧
    generic_malloc_get_info false demo_initial 0x10200 none = none ∧
    (generic_malloc_set_type false demo_initial 0x10200 555).isNone = true ∧
    generic_malloc_get_info false moved_arena_state 0x10800 none = none ∧
    (generic_malloc_set_type false moved_arena_state 0x10800 555).isNone = true := by
  decide!

/-- C7, amended: an address in no arena is fatal for both calls (the assertion
of `arena_for_userptr` in a debug build; without assertions the null arena is
dereferenced by `lookup` once the registry is initialised).  For an address
inside the arena both calls return the unindexed-heap-object error when no
promotion record of this allocator is supplied, and
`__generic_malloc_set_type` leaves the state as it was, provided that, once
the registry is initialised, a store with the base address of the arena is
attached and no bit is set at or before the slot of the address (in an
`NDEBUG` build also: the address is at least `biggest_unpromoted_object` and
its slot index fits `unsigned`). -/
theorem unindexed_address_outcome (ndebug : Bool) (s : heap_state) (obj new_type : Nat)
    (b : Option big_allocation)
    (hb : ∀ r, b = some r → r.allocated_by ≠ allocator.generic_malloc) :
    (¬ (s.arena_begin ≤ obj ∧ obj < s.arena_end) →
      (ndebug = true → s.big_allocations_1_begin ≠ 0) →
      generic_malloc_get_info ndebug s obj b = none ∧
      generic_malloc_set_type ndebug s obj new_type = none) ∧
    (s.arena_begin ≤ obj → obj < s.arena_end → obj < UINTPTR_MOD →
      (s.big_allocations_1_begin ≠ 0 →
        ∃ info, s.suballocator_private = some info ∧
          info.bitmap_base_addr
            = ROUND_DOWN_PTR s.arena_begin (MALLOC_ALIGN * BITMAP_WORD_NBITS) ∧
          (ndebug = true → s.biggest_unpromoted_object ≤ obj ∧
            (obj - info.bitmap_base_addr) / MALLOC_ALIGN < UNSIGNED_MOD) ∧
          (∀ j, j ≤ (obj - info.bitmap_base_addr) / MALLOC_ALIGN → info.bitmap j = false)) →
      generic_malloc_get_info ndebug s obj b = some get_info_result.unindexed_heap_object ∧
      generic_malloc_set_type ndebug s obj new_type
        = some (liballocs_err_t.unindexed_heap_object, s)) := by
  have hget : generic_malloc_get_info ndebug s obj b = get_info_by_lookup ndebug s obj := by
    cases b with
    | none => rfl
    | some r => simp [generic_malloc_get_info, hb r rfl]
  rw [hget]
  constructor
  · intro hout hinit
    have harena : arena_for_userptr s obj = none := by simp [arena_for_userptr, hout]
    cases ndebug with
    | false => simp [get_info_by_lookup, generic_malloc_set_type, harena]
    | true =>
      simp [get_info_by_lookup, generic_malloc_set_type, harena, lookup_object_info, hinit rfl]
  · intro hlo hhi hobj hstate
    have harena : arena_for_userptr s obj = some () := by simp [arena_for_userptr, hlo, hhi]
    have hinfo : lookup_object_info ndebug s (some ()) obj = some none := by
      by_cases hinit : s.big_allocations_1_begin = 0
      · simp [lookup_object_info, hinit]
      · obtain ⟨info, hstore, hcons, hnd, hclear⟩ := hstate hinit
        have hlook := lookup_none_of_clear ndebug s info obj hstore hcons hobj hlo hnd hclear
        simp [lookup_object_info, hinit, hlook]
    simp [get_info_by_lookup, generic_malloc_set_type, harena, hinfo]

/-- C7, amended, at concrete queries: `0x90000` lies outside the arena, and
`0x10200` lies inside it with no bit set in the store. -/
theorem unindexed_address_outcome_witness :
    (generic_malloc_get_info false empty_store_state 0x90000 none = none ∧
      generic_malloc_set_type false empty_store_state 0x90000 555 = none) ∧
    (generic_malloc_get_info false empty_store_state 0x10200 none
        = some get_info_result.unindexed_heap_object ∧
      generic_malloc_set_type false empty_store_state 0x10200 555
        = some (liballocs_err_t.unindexed_heap_object, empty_store_state)) :=
  ⟨(unindexed_address_outcome false empty_store_state 0x90000 555 none
      (fun _ h => by cases h)).1 (by decide) (fun h => by cases h),
   (unindexed_address_outcome false empty_store_state 0x10200 555 none
      (fun _ h => by cases h)).2 (by decide) (by decide) (by decide!)
      (fun _ => ⟨_, rfl, by decide, (fun h => by cases h), fun _ _ => rfl⟩)⟩


/-! ## Reallocation in place of a promoted chunk -/

theorem store_consistent_iff (s : heap_state) :
    store_consistent s ↔
      (s.arena_end + MALLOC_ALIGN * BITMAP_WORD_NBITS ≤ UINTPTR_MOD ∧
        (s.suballocator_private.map (fun i => decide (i.bitmap_base_addr =
          ROUND_DOWN_PTR s.arena_begin (MALLOC_ALIGN * BITMAP_WORD_NBITS)))).getD true = true) := by
  unfold store_consistent
  cases h : s.suballocator_private with
  | none => simp
  | some i => simp

theorem lookup_bigalloc_after_delete (s : heap_state) (p : Nat)
    (hunique : ∀ b ∈ s.promoted, b.covers p allocator.generic_malloc = true → b.begin_addr = p) :
    lookup_bigalloc_from_root (liballocs_delete_bigalloc_at s p allocator.generic_malloc) p
      allocator.generic_malloc = none := by
  unfold lookup_bigalloc_from_root liballocs_delete_bigalloc_at
  simp only [List.find?_eq_none, List.mem_filter]
  intro b hb hcov
  obtain ⟨hmem, hkeep⟩ := hb
  have hbegin := hunique b hmem hcov
  have hby : b.allocated_by = allocator.generic_malloc := by
    simp only [big_allocation.covers, Bool.and_eq_true, decide_eq_true_eq] at hcov
    exact hcov.1.1
  simp [hbegin, hby] at hkeep

theorem pre_nonnull_nonzero_realloc_promoted {s : heap_state} {p : Nat} (size caller : Nat)
    {r : big_allocation} (hp0 : p ≠ 0) (hlo : s.arena_begin ≤ p) (hhi : p < s.arena_end)
    (hrec : lookup_bigalloc_under s p allocator.generic_malloc = some r) :
    pre_nonnull_nonzero_realloc s p size caller
      = some (liballocs_delete_bigalloc_at s p allocator.generic_malloc) := by
  simp [pre_nonnull_nonzero_realloc, arena_for_userptr, hlo, hhi, bitmap_delete, hp0, hrec]

theorem post_realloc_in_place_eq (s : heap_state) (p ms old caller : Nat)
    (hlo : s.arena_begin ≤ p) (hhi : p < s.arena_end)
    (hnone : lookup_bigalloc_from_root s p allocator.generic_malloc = none) :
    post_nonnull_nonzero_realloc s p ms old caller p =
      bitmap_insert s p
        (if s.current_allocsz ≠ 0 then s.current_allocsz
          else sub_uintptr ms SIZEOF_EXTENDED_INSERT)
        (if s.current_allocsite ≠ 0 then s.current_allocsite else caller) := by
  unfold post_nonnull_nonzero_realloc
  simp only [hnone, ne_eq, not_true_eq_false, and_false, if_false, arena_for_userptr, hlo, hhi,
    and_self, if_true]
  cases bitmap_insert s p
      (if ¬ s.current_allocsz = 0 then s.current_allocsz
        else sub_uintptr ms SIZEOF_EXTENDED_INSERT)
      (if ¬ s.current_allocsite = 0 then s.current_allocsite else caller) with
  | none => rfl
  | some s1 => simp

/-- C8, as stated, fails: the promoted 200008-byte chunk at `0x11000` is
reallocated in place to the usable size 1008; afterwards no promotion record
exists at all, and `lookup` at `0x11000 + 1008`, past the new end, still
reports the chunk, in the debug and in the `NDEBUG` build. -/
theorem shrunk_chunk_still_found_past_end :
    (pre_nonnull_nonzero_realloc demo_promoted_state 0x11000 1000 78).bind
      (fun s1 => (post_nonnull_nonzero_realloc (host_resize s1 0x11000 1008)
          0x11000 1008 200008 78 0x11000).map
        (fun s2 => (s2.promoted, lookup false s2 (0x11000 + 1008),
          lookup true s2 (0x11000 + 1008))))
      = some ([], some (some (0x11000, 0x11000 + 1000)),
          some (some (0x11000, 0x11000 + 1000))) := by
  decide!

/-- C8, amended: for a promoted chunk at `p`, `pre_nonnull_nonzero_realloc`
deletes the promotion record; `post_nonnull_nonzero_realloc` with
`new_allocptr = p` then finds no record to truncate and re-indexes the chunk
with `bitmap_insert` under the new host usable size: above the threshold a
fresh record covering the new caller-visible bytes is created, at or below it
the chunk is left without a promotion record, and in both cases the bitmap bit
of `p` is set; the post hook does return when the store is consistent. -/
theorem realloc_in_place_of_promoted_chunk (s : heap_state)
    (p size ms old caller new_usable : Nat) (r : big_allocation)
    (hp0 : p ≠ 0) (hlo : s.arena_begin ≤ p) (hhi : p < s.arena_end)
    (hrec : lookup_bigalloc_under s p allocator.generic_malloc = some r)
    (hunique : ∀ b ∈ s.promoted, b.covers p allocator.generic_malloc = true → b.begin_addr = p) :
    ∃ s1, pre_nonnull_nonzero_realloc s p size caller = some s1 ∧
      lookup_bigalloc_from_root s1 p allocator.generic_malloc = none ∧
      (∀ s2, post_nonnull_nonzero_realloc (host_resize s1 p new_usable) p ms old caller p
          = some s2 →
        (new_usable > PROMOTE_THRESHOLD →
          s2.promoted = promotion_record (host_resize s1 p new_usable) p :: s1.promoted) ∧
        (new_usable ≤ PROMOTE_THRESHOLD →
          s2.promoted = s1.promoted ∧
          lookup_bigalloc_from_root s2 p allocator.generic_malloc = none) ∧
        bitmap_bit_set s2 p = true) ∧
      (store_consistent s →
        (new_usable > PROMOTE_THRESHOLD →
          (if s.current_allocsz ≠ 0 then s.current_allocsz
            else sub_uintptr ms SIZEOF_EXTENDED_INSERT)
          ≤ sub_uintptr new_usable SIZEOF_INSERT) →
        ∃ s2, post_nonnull_nonzero_realloc (host_resize s1 p new_usable) p ms old caller p
          = some s2) := by
  have hdel := lookup_bigalloc_after_delete s p hunique
  have hdel' : lookup_bigalloc_from_root
      (host_resize (liballocs_delete_bigalloc_at s p allocator.generic_malloc) p new_usable) p
      allocator.generic_malloc = none := hdel
  have heq := post_realloc_in_place_eq
    (host_resize (liballocs_delete_bigalloc_at s p allocator.generic_malloc) p new_usable)
    p ms old caller hlo hhi hdel'
  refine ⟨_, pre_nonnull_nonzero_realloc_promoted size caller hp0 hlo hhi hrec, hdel, ?_, ?_⟩
  · intro s2 h
    rw [heq] at h
    have hbit := bitmap_insert_sets_bit h
    obtain ⟨info, info1, _, _, _, _, _, _, _, _, _, _, hprom⟩ := bitmap_insert_some h
    have hus : (host_resize (liballocs_delete_bigalloc_at s p allocator.generic_malloc) p
        new_usable).malloc_usable_size p = new_usable := by
      simp [host_resize]
    rw [hus] at hprom
    refine ⟨?_, ?_, hbit⟩
    · intro hbig
      rw [if_pos hbig] at hprom
      exact hprom.1
    · intro hsmall
      rw [if_neg (by omega)] at hprom
      refine ⟨hprom.1, ?_⟩
      unfold lookup_bigalloc_from_root
      rw [hprom.1]
      exact hdel
  · intro hc hreq
    rw [heq]
    apply bitmap_insert_returns
    · exact hc
    · exact hlo
    · exact hhi
    · intro hbig
      have hus : (host_resize (liballocs_delete_bigalloc_at s p allocator.generic_malloc) p
          new_usable).malloc_usable_size p = new_usable := by
        simp [host_resize]
      rw [hus] at hbig ⊢
      exact hreq hbig

/-- C8, amended, at a concrete call: the promoted 200008-byte chunk at
`0x11000`, shrunk in place to the usable size 1008. -/
theorem realloc_in_place_of_promoted_chunk_witness :
    ∃ s1, pre_nonnull_nonzero_realloc demo_promoted_state 0x11000 1000 78 = some s1 ∧
      lookup_bigalloc_from_root s1 0x11000 allocator.generic_malloc = none ∧
      ∃ s2, post_nonnull_nonzero_realloc (host_resize s1 0x11000 1008)
          0x11000 1008 200008 78 0x11000 = some s2 ∧
        s2.promoted = s1.promoted ∧
        lookup_bigalloc_from_root s2 0x11000 allocator.generic_malloc = none ∧
        bitmap_bit_set s2 0x11000 = true := by
  obtain ⟨s1, h1, h2, h3, h4⟩ :=
    realloc_in_place_of_promoted_chunk demo_promoted_state 0x11000 1000 1008 200008 78 1008
      demo_record (by decide) (by decide!) (by decide!) (by decide!) (by decide!)
  obtain ⟨s2, hs2⟩ := h4 ((store_consistent_iff _).2 (by decide!)) (fun h => by
    exfalso; revert h; decide!)
  obtain ⟨_, g2, g3⟩ := h3 s2 hs2
  exact ⟨s1, h1, h2, s2, hs2, (g2 (by decide!)).1, (g2 (by decide!)).2, g3⟩


/-! ## Where the reverse lookup does find the chunk -/

theorem bitmap_rfind_some (bitmap : Nat → Bool) (p_bitmap p_limit k : Nat)
    (hset : bitmap (p_bitmap * BITMAP_WORD_NBITS + k) = true)
    (hin : p_bitmap * BITMAP_WORD_NBITS + k < p_limit * BITMAP_WORD_NBITS) :
    ∀ n, k ≤ n →
      (∀ i, k < i → i ≤ n → bitmap (p_bitmap * BITMAP_WORD_NBITS + i) = false) →
      bitmap_rfind_first_set_leq_l bitmap p_bitmap p_limit n = some k := by
  intro n
  induction n with
  | zero =>
    intro hk _
    have hk0 : k = 0 := by omega
    subst hk0
    simp only [Nat.add_zero] at hset hin
    simp [bitmap_rfind_first_set_leq_l, hset, hin]
  | succ n ih =>
    intro hk hclear
    rw [bitmap_rfind_first_set_leq_l]
    by_cases hkn : k = n + 1
    · subst hkn
      rw [if_pos ⟨hin, hset⟩]
    · have hfalse := hclear (n + 1) (by omega) (le_refl _)
      rw [if_neg (by simp [hfalse])]
      exact ih (by omega) (fun i h1 h2 => hclear i h1 (by omega))

theorem lookup_window (ndebug : Bool) (s : heap_state) (info : arena_bitmap_info)
    (mem : Nat) (hmem : mem < UINTPTR_MOD) (hbase : info.bitmap_base_addr ≤ mem)
    (hfit : (mem - info.bitmap_base_addr) / MALLOC_ALIGN < UNSIGNED_MOD)
    (hnd : ndebug = true → s.biggest_unpromoted_object ≤ mem) :
    ∃ h, nbits_hidden ndebug s info mem = h ∧
      h / BITMAP_WORD_NBITS * BITMAP_WORD_NBITS = h ∧
      sub_uintptr (sub_uintptr mem info.bitmap_base_addr / MALLOC_ALIGN % UNSIGNED_MOD) h
        = (mem - info.bitmap_base_addr) / MALLOC_ALIGN - h ∧
      h ≤ (mem - info.bitmap_base_addr) / MALLOC_ALIGN ∧
      (ndebug = false → h = 0) ∧
      (ndebug = true →
        h * MALLOC_ALIGN ≤ mem - s.biggest_unpromoted_object - info.bitmap_base_addr) := by
  refine ⟨_, rfl, ?_⟩
  rw [sub_uintptr_of_le hbase hmem]
  cases ndebug with
  | false =>
    have h0 : nbits_hidden false s info mem = 0 := by simp [nbits_hidden]
    rw [h0]
    unfold sub_uintptr
    unfold UNSIGNED_MOD at hfit ⊢
    unfold UINTPTR_MOD BITMAP_WORD_NBITS
    unfold MALLOC_ALIGN at hfit ⊢
    refine ⟨by omega, by omega, by omega, fun _ => rfl, fun h => by cases h⟩
  | true =>
    have hbup := hnd rfl
    have hfake : sub_uintptr mem s.biggest_unpromoted_object = mem - s.biggest_unpromoted_object :=
      sub_uintptr_of_le hbup hmem
    unfold nbits_hidden
    simp only [if_true, hfake]
    split
    · rename_i hgt
      rw [sub_uintptr_of_le (le_of_lt hgt) (by
        unfold ROUND_DOWN_PTR MALLOC_ALIGN BITMAP_WORD_NBITS
        unfold UINTPTR_MOD at hmem ⊢
        omega)]
      unfold sub_uintptr
      unfold ROUND_DOWN_PTR at hgt ⊢
      unfold UINTPTR_MOD at hmem ⊢
      unfold UNSIGNED_MOD at hfit ⊢
      unfold BITMAP_WORD_NBITS MALLOC_ALIGN at *
      refine ⟨by omega, by omega, by omega, (fun h => by cases h), fun _ => by omega⟩
    · unfold sub_uintptr
      unfold UNSIGNED_MOD at hfit ⊢
      unfold UINTPTR_MOD BITMAP_WORD_NBITS
      unfold MALLOC_ALIGN at hfit ⊢
      refine ⟨by omega, by omega, by omega, (fun h => by cases h), fun _ => by omega⟩

theorem lookup_of_nearest_bit (ndebug : Bool) (s : heap_state) (info : arena_bitmap_info)
    (mem B : Nat) (hstore : s.suballocator_private = some info)
    (hcons : info.bitmap_base_addr =
      ROUND_DOWN_PTR s.arena_begin (MALLOC_ALIGN * BITMAP_WORD_NBITS))
    (hmem : mem < UINTPTR_MOD) (hB : info.bitmap_base_addr ≤ B) (hBm : B ≤ mem)
    (halign : B % MALLOC_ALIGN = 0)
    (hset : info.bitmap ((B - info.bitmap_base_addr) / MALLOC_ALIGN) = true)
    (hin : (B - info.bitmap_base_addr) / MALLOC_ALIGN < info.nwords * BITMAP_WORD_NBITS)
    (hclear : ∀ j, (B - info.bitmap_base_addr) / MALLOC_ALIGN < j →
      j ≤ (mem - info.bitmap_base_addr) / MALLOC_ALIGN → info.bitmap j = false)
    (hfit : (mem - info.bitmap_base_addr) / MALLOC_ALIGN < UNSIGNED_MOD)
    (hnd : ndebug = true →
      s.biggest_unpromoted_object ≤ mem ∧ mem - B ≤ s.biggest_unpromoted_object) :
    lookup ndebug s mem = some (some (B, insert_for_chunk s B)) := by
  obtain ⟨h, hh, hmul, hsub, hle, hdbg, hndb⟩ :=
    lookup_window ndebug s info mem hmem (by omega) hfit (fun e => (hnd e).1)
  have hbase16 : info.bitmap_base_addr % MALLOC_ALIGN = 0 := by
    rw [hcons]
    unfold ROUND_DOWN_PTR MALLOC_ALIGN BITMAP_WORD_NBITS
    omega
  have hhB : h ≤ (B - info.bitmap_base_addr) / MALLOC_ALIGN := by
    cases ndebug with
    | false => rw [hdbg rfl]; exact Nat.zero_le _
    | true =>
      have h1 := hndb rfl
      have h2 := (hnd rfl).2
      unfold MALLOC_ALIGN at h1 ⊢
      omega
  have hfound := bitmap_rfind_some info.bitmap (h / BITMAP_WORD_NBITS) info.nwords
    ((B - info.bitmap_base_addr) / MALLOC_ALIGN - h)
    (by rw [hmul, Nat.add_sub_cancel' hhB]; exact hset)
    (by rw [hmul, Nat.add_sub_cancel' hhB]; exact hin)
    ((mem - info.bitmap_base_addr) / MALLOC_ALIGN - h)
    (by unfold MALLOC_ALIGN at *; omega)
    (by
      intro i h1 h2
      rw [hmul]
      apply hclear
      · omega
      · omega)
  have hstart : info.bitmap_base_addr
      + MALLOC_ALIGN * ((B - info.bitmap_base_addr) / MALLOC_ALIGN - h + h) = B := by
    rw [Nat.sub_add_cancel hhB]
    unfold MALLOC_ALIGN at *
    omega
  unfold lookup
  simp only [hstore, hcons, ne_eq, not_true_eq_false, and_false, if_false]
  rw [← hcons, hh, hsub, hfound]
  simp only [hstart]


/-! ## The index after a run of allocations -/

theorem le_MAX_left (a b : Nat) : a ≤ MAX a b := by
  unfold MAX
  split <;> omega

theorem le_MAX_right (a b : Nat) : b ≤ MAX a b := by
  unfold MAX
  split <;> omega

theorem check_arena_bitmap_bits {s : heap_state} {info1 : arena_bitmap_info}
    (h : (check_arena_bitmap s).suballocator_private = some info1) :
    ((∀ j, s.private_memory j = false) → ∀ j, info1.bitmap j = true →
      ∃ info, s.suballocator_private = some info ∧ info.bitmap j = true) ∧
    (∀ info, s.suballocator_private = some info →
      info.nwords ≤ info1.nwords ∧
      ∀ j, j < info.nwords * BITMAP_WORD_NBITS → info1.bitmap j = info.bitmap j) := by
  unfold check_arena_bitmap private_realloc at h
  simp only [] at h
  cases hp : s.suballocator_private with
  | none =>
    simp only [hp] at h
    split at h
    · simp only [Option.some.injEq] at h
      subst h
      refine ⟨fun hz j hj => ?_, by simp⟩
      simp [hz j] at hj
    · simp only [Option.some.injEq] at h
      subst h
      simp
  | some i =>
    simp only [hp] at h
    split at h
    · rename_i hgrow
      simp only [Option.some.injEq] at h
      subst h
      constructor
      · intro hz j hj
        refine ⟨i, rfl, ?_⟩
        simp only [Bool.ite_eq_true_distrib] at hj
        split at hj
        · exact hj
        · exact absurd hj (by simp [hz j])
      · intro info hinfo
        simp only [Option.some.injEq] at hinfo
        subst hinfo
        exact ⟨le_of_lt hgrow, fun j hj => by simp [hj]⟩
    · simp only [Option.some.injEq] at h
      subst h
      constructor
      · intro _ j hj
        exact ⟨_, rfl, hj⟩
      · intro info hinfo
        simp only [Option.some.injEq] at hinfo
        subst hinfo
        exact ⟨le_refl _, fun j _ => rfl⟩

theorem index_matches_congr {s : heap_state} {live live1 : Nat → Prop}
    (h : index_matches s live) (heq : ∀ q, live q ↔ live1 q) : index_matches s live1 := by
  obtain ⟨h1, h2, h3, h4, h5⟩ := h
  refine ⟨h1, fun q hq => h2 q ((heq q).2 hq), ?_, fun q hq => h4 q ((heq q).2 hq), h5⟩
  intro info hinfo j hj
  obtain ⟨q, hq, hjq⟩ := h3 info hinfo j hj
  exact ⟨q, (heq q).1 hq, hjq⟩

theorem index_matches_step {s s1 : heap_state} {live : Nat → Prop} {p ms ma rs ra caller : Nat}
    (hinv : index_matches s live)
    (h : post_successful_alloc s p ms ma rs ra caller = some s1) :
    index_matches s1 (fun q => live q ∨ q = p) ∧
    s1.malloc_usable_size = s.malloc_usable_size ∧
    s1.arena_begin = s.arena_begin ∧ s1.arena_end = s.arena_end := by
  obtain ⟨hc, hlive, hbits, hbup, hmem⟩ := hinv
  obtain ⟨hlo, hhi, s2, hs2, rfl⟩ := post_successful_alloc_some h
  have hmem2 := bitmap_insert_private_memory hs2
  obtain ⟨info, info1, hinfo, hbase, hset, hpriv, _, hus, hbeg, hend, _, _, hprom⟩ :=
    bitmap_insert_some hs2
  obtain ⟨hidx, hnw, hb1, hbm⟩ := bitmap_set_l_some hset
  obtain ⟨hsub, hkeep⟩ := check_arena_bitmap_bits hinfo
  have hendb := hc.1
  have hble : info.bitmap_base_addr ≤ p := by
    rw [hbase]
    unfold ROUND_DOWN_PTR MALLOC_ALIGN BITMAP_WORD_NBITS
    omega
  have hp64 : p < UINTPTR_MOD := by
    unfold MALLOC_ALIGN BITMAP_WORD_NBITS at hendb
    omega
  have hidxp : insert_bit_index info p = (p - info.bitmap_base_addr) / MALLOC_ALIGN := by
    unfold insert_bit_index
    rw [sub_uintptr_of_le hble hp64]
  have hbupmono : s.biggest_unpromoted_object ≤ s2.biggest_unpromoted_object := by
    split at hprom
    · rw [hprom.2]
    · rw [hprom.2]; exact le_MAX_right _ _
  refine ⟨⟨?_, ?_, ?_, ?_, ?_⟩, hus, hbeg, hend⟩
  rotate_right
  · intro j
    show s2.private_memory j = false
    rw [hmem2]
    exact hmem j
  · refine ⟨by simpa only [hend] using hendb, ?_⟩
    intro i hi
    simp only [hpriv, Option.some.injEq] at hi
    subst hi
    simp only [hb1, hbase, hbeg]
  · intro q hq
    simp only [hbeg, hend, hpriv]
    cases hq with
    | inl hq =>
      obtain ⟨q1, q2, info0, hinfo0, hq3, hq4⟩ := hlive q hq
      obtain ⟨hn, hk⟩ := hkeep info0 hinfo0
      have hb0 : info0.bitmap_base_addr = info.bitmap_base_addr := by
        rw [hc.2 info0 hinfo0, hbase]
      refine ⟨q1, q2, info1, rfl, ?_, ?_⟩
      · have hkey : info.bitmap ((q - info0.bitmap_base_addr) / MALLOC_ALIGN) = true := by
          rw [hk _ hq4]; exact hq3
        rw [hbm, hb1, ← hb0]
        by_cases hjp : (q - info0.bitmap_base_addr) / MALLOC_ALIGN = insert_bit_index info p
        · simp [hjp]
        · simp [hjp, hkey]
      · rw [hnw, hb1, ← hb0]
        exact lt_of_lt_of_le hq4 (Nat.mul_le_mul_right _ hn)
    | inr hq =>
      subst hq
      refine ⟨hlo, hhi, info1, rfl, ?_, ?_⟩
      · rw [hbm, hb1, hidxp]
        simp
      · rw [hnw, hb1, ← hidxp]
        exact hidx
  · intro i hi j hj
    simp only [hpriv, Option.some.injEq] at hi
    subst hi
    rw [hbm] at hj
    simp only [Bool.ite_eq_true_distrib] at hj
    split at hj
    · rename_i hjp
      exact ⟨p, Or.inr rfl, by rw [hjp, hidxp, hb1]⟩
    · obtain ⟨info0, hinfo0, hj0⟩ := hsub hmem j hj
      obtain ⟨q, hq, hjq⟩ := hbits info0 hinfo0 j hj0
      refine ⟨q, Or.inl hq, ?_⟩
      rw [hjq, hb1, hc.2 info0 hinfo0, hbase]
  · intro q hq hsmall
    simp only [hus] at hsmall ⊢
    cases hq with
    | inl hq => exact le_trans (hbup q hq hsmall) hbupmono
    | inr hq =>
      subst hq
      rw [if_neg (by omega)] at hprom
      show _ ≤ s2.biggest_unpromoted_object
      rw [hprom.2]
      exact le_MAX_left _ _

theorem index_matches_run :
    ∀ (calls : List (Nat × Nat × Nat)) (s s1 : heap_state) (live : Nat → Prop),
      index_matches s live → post_successful_allocs s calls = some s1 →
      index_matches s1 (fun q => live q ∨ q ∈ calls.map Prod.fst) ∧
      s1.malloc_usable_size = s.malloc_usable_size ∧
      s1.arena_begin = s.arena_begin ∧ s1.arena_end = s.arena_end := by
  intro calls
  induction calls with
  | nil =>
    intro s s1 live hinv h
    simp only [post_successful_allocs, Option.some.injEq] at h
    subst h
    exact ⟨index_matches_congr hinv (fun q => by simp), rfl, rfl, rfl⟩
  | cons c rest ih =>
    intro s s1 live hinv h
    rw [post_successful_allocs] at h
    split at h
    · exact absurd h (by simp)
    · rename_i s2 hs2
      obtain ⟨hinv2, e1, e2, e3⟩ := index_matches_step hinv hs2
      obtain ⟨hinv3, f1, f2, f3⟩ := ih s2 s1 _ hinv2 h
      refine ⟨index_matches_congr hinv3 (fun q => ?_), f1.trans e1, f2.trans e2, f3.trans e3⟩
      simp only [List.map_cons, List.mem_cons]
      tauto

theorem index_matches_initial (arena_begin arena_end : Nat) (usable : Nat → Nat)
    (hend : arena_end + MALLOC_ALIGN * BITMAP_WORD_NBITS ≤ UINTPTR_MOD) :
    index_matches (initial_state arena_begin arena_end usable) (fun _ => False) := by
  refine ⟨⟨hend, ?_⟩, ?_, ?_, ?_, fun _ => rfl⟩
  · intro i hi
    simp [initial_state] at hi
  · intro q hq
    exact absurd hq (by simp)
  · intro i hi
    simp [initial_state] at hi
  · intro q hq
    exact absurd hq (by simp)


/-- Reverse lookup where the slot index fits `unsigned`: after a run of
`post_successful_alloc` calls from the empty index on slot-aligned chunks
whose extents do not overlap, for a chunk `B` of the run that was not
promoted, lies inside the arena and holds its metadata record, and for every
offset `o` below its caller-visible size, `lookup` at `B + o` reports `B`,
provided the slot index of `B + o` is below `2 ^ 32` (and, in an `NDEBUG`
build, `biggest_unpromoted_object` does not exceed the address). -/
theorem lookup_reports_chunk_start (ndebug : Bool) (arena_begin arena_end : Nat)
    (usable : Nat → Nat) (calls : List (Nat × Nat × Nat)) (s : heap_state) (B o : Nat)
    (hend : arena_end + MALLOC_ALIGN * BITMAP_WORD_NBITS ≤ UINTPTR_MOD)
    (hrun : post_successful_allocs (initial_state arena_begin arena_end usable) calls = some s)
    (halign : ∀ c ∈ calls, c.1 % MALLOC_ALIGN = 0)
    (hdisj : ∀ c ∈ calls, ∀ d ∈ calls, c.1 < d.1 → c.1 + usable c.1 ≤ d.1)
    (hB : B ∈ calls.map Prod.fst) (hsmall : usable B ≤ PROMOTE_THRESHOLD)
    (hrec : SIZEOF_EXTENDED_INSERT ≤ usable B) (hinside : B + usable B ≤ arena_end)
    (ho : o < usable B - SIZEOF_EXTENDED_INSERT)
    (hfit : (B + o - ROUND_DOWN_PTR arena_begin (MALLOC_ALIGN * BITMAP_WORD_NBITS))
      / MALLOC_ALIGN < UNSIGNED_MOD)
    (hnd : ndebug = true → s.biggest_unpromoted_object ≤ B + o) :
    lookup ndebug s (B + o) = some (some (B, insert_for_chunk s B)) := by
  obtain ⟨⟨hc, hlive, hbits, hbup, _⟩, hus, hbeg, hen⟩ :=
    index_matches_run calls _ s _ (index_matches_initial arena_begin arena_end usable hend) hrun
  have hus1 : s.malloc_usable_size = usable := hus
  have hbeg1 : s.arena_begin = arena_begin := hbeg
  have hen1 : s.arena_end = arena_end := hen
  obtain ⟨hBlo, hBhi, info, hinfo, hBset, hBin⟩ := hlive B (Or.inr hB)
  have hcons := hc.2 info hinfo
  have hbase : info.bitmap_base_addr ≤ arena_begin := by
    rw [hcons, hbeg1]
    unfold ROUND_DOWN_PTR MALLOC_ALIGN BITMAP_WORD_NBITS
    omega
  have hbase16 : info.bitmap_base_addr % MALLOC_ALIGN = 0 := by
    rw [hcons]
    unfold ROUND_DOWN_PTR MALLOC_ALIGN BITMAP_WORD_NBITS
    omega
  obtain ⟨cB, hcB, hcB1⟩ := List.mem_map.1 hB
  have hBal : B % MALLOC_ALIGN = 0 := by rw [← hcB1]; exact halign cB hcB
  have hcus : caller_usable_size_for_chunk_and_malloc_usable_size B (usable B)
      = usable B - SIZEOF_EXTENDED_INSERT := by
    unfold caller_usable_size_for_chunk_and_malloc_usable_size
    apply sub_uintptr_of_le hrec
    unfold MALLOC_ALIGN BITMAP_WORD_NBITS at hend
    omega
  have hbupB := hbup B (Or.inr hB) (by rw [hus1]; exact hsmall)
  rw [hus1, hcus] at hbupB
  rw [hbeg1] at hBlo
  apply lookup_of_nearest_bit ndebug s info (B + o) B hinfo hcons
  · unfold MALLOC_ALIGN BITMAP_WORD_NBITS at hend
    omega
  · omega
  · omega
  · exact hBal
  · exact hBset
  · exact hBin
  · intro j hj1 hj2
    cases hbj : info.bitmap j with
    | false => rfl
    | true =>
      exfalso
      obtain ⟨q, hq, hjq⟩ := hbits info hinfo j hbj
      obtain ⟨hqlo, _, _⟩ := hlive q hq
      rw [hbeg1] at hqlo
      have hqmem : q ∈ calls.map Prod.fst := by
        cases hq with
        | inl hf => exact absurd hf (by simp)
        | inr hm => exact hm
      obtain ⟨cq, hcq, hcq1⟩ := List.mem_map.1 hqmem
      have hqal : q % MALLOC_ALIGN = 0 := by rw [← hcq1]; exact halign cq hcq
      have hlt : B < q := by
        unfold MALLOC_ALIGN at *
        omega
      have hd := hdisj cB hcB cq hcq (by rw [hcB1, hcq1]; exact hlt)
      rw [hcB1, hcq1] at hd
      unfold MALLOC_ALIGN SIZEOF_EXTENDED_INSERT at *
      omega
  · rw [hcons, hbeg1]
    exact hfit
  · intro e
    refine ⟨hnd e, ?_⟩
    omega


/-! ## Round trips through the bitmap path -/

theorem lookup_inserts_irrelevant (ndebug : Bool) (s : heap_state) (f : Nat → insert)
    (mem : Nat) :
    lookup ndebug { s with inserts := f } mem = lookup ndebug s mem := rfl

theorem lookup_object_info_inserts_irrelevant (ndebug : Bool) (s : heap_state)
    (f : Nat → insert) (arena : Option Unit) (mem : Nat) :
    lookup_object_info ndebug { s with inserts := f } arena mem
      = lookup_object_info ndebug s arena mem := rfl

/-- The round trip of `set_type` and `get_info` through the bitmap path: when
`__generic_malloc_set_type` returns no error, `__generic_malloc_get_info` on
the same address, given no promotion record, reads the record that was written
and reports the flag 1 and the type. -/
theorem set_type_then_get_info_without_record (ndebug : Bool) (s s1 : heap_state)
    (obj new_type : Nat)
    (h : generic_malloc_set_type ndebug s obj new_type = some (liballocs_err_t.NULL, s1)) :
    ∃ base size heap_info,
      generic_malloc_get_info ndebug s1 obj none
        = some (get_info_result.no_error base size heap_info
            { alloc_site_flag := 1, alloc_site := new_type }) := by
  unfold generic_malloc_set_type at h
  simp only [] at h
  split at h
  · exact absurd h (by simp)
  · rename_i hassert
    split at h
    · exact absurd h (by simp)
    · simp at h
    · rename_i ins start sz hinfo
      simp only [Option.some.injEq, Prod.mk.injEq, true_and] at h
      subst h
      have hstart : ¬ ((!ndebug) = true ∧ start = 0) := by
        unfold lookup_object_info at hinfo
        split at hinfo
        · exact absurd hinfo (by simp)
        · split at hinfo
          · exact absurd hinfo (by simp)
          · split at hinfo
            · exact absurd hinfo (by simp)
            · exact absurd hinfo (by simp)
            · split at hinfo
              · exact absurd hinfo (by simp)
              · rename_i hne
                simp only [Option.some.injEq, Prod.mk.injEq] at hinfo
                rw [← hinfo.2.1]
                exact hne
      refine ⟨start, caller_usable_size_for_chunk_and_malloc_usable_size start sz, ins, ?_⟩
      have harena1 : arena_for_userptr
          { s with inserts := fun a =>
              if a = ins then { alloc_site_flag := 1, alloc_site := new_type }
              else s.inserts a } obj = arena_for_userptr s obj := rfl
      unfold generic_malloc_get_info get_info_by_lookup
      simp only [harena1, lookup_object_info_inserts_irrelevant, hinfo]
      rw [if_neg hassert, if_neg hstart]
      simp


theorem pre_alloc_in_range (R alignment caller : Nat)
    (hR : R + SIZEOF_EXTENDED_INSERT + ALIGNOF_VOIDP ≤ UINTPTR_MOD) :
    ∃ m, pre_alloc R alignment caller = some (m, alignment) ∧
      R + SIZEOF_EXTENDED_INSERT ≤ m := by
  unfold pre_alloc CHUNK_SIZE_WITH_TRAILER ROUND_UP_PTR
  unfold SIZEOF_EXTENDED_INSERT ALIGNOF_VOIDP at *
  unfold UINTPTR_MOD at *
  refine ⟨(R + 8 + 8 - 1) / 8 * 8 % 18446744073709551616, ?_, ?_⟩
  · rw [if_pos (by omega)]
  · omega

/-- The round trip of size and base where the arithmetic does not wrap: for a
request `R` that `pre_alloc` can inflate without leaving `size_t`, and a
slot-aligned chunk `B` inside the arena whose host usable size is at least the
size returned by `pre_alloc`, `post_successful_alloc` indexes the chunk and
`__generic_malloc_get_info(B)` through the bitmap path reports the base `B` and
a caller-visible size of at least `R`, provided the slot index of `B` fits
`unsigned` (and, in an `NDEBUG` build, `B` is at least its usable size and
`biggest_unpromoted_object`). -/
theorem get_info_round_trip_in_range (ndebug : Bool) (s : heap_state)
    (R alignment caller B ms ma rs ra : Nat)
    (hR : R + SIZEOF_EXTENDED_INSERT + ALIGNOF_VOIDP ≤ UINTPTR_MOD)
    (hc : store_consistent s) (hinit : s.big_allocations_1_begin ≠ 0)
    (hB0 : B ≠ 0) (hlo : s.arena_begin ≤ B) (hinside : B + s.malloc_usable_size B ≤ s.arena_end)
    (halign : B % MALLOC_ALIGN = 0)
    (hreq : s.malloc_usable_size B > PROMOTE_THRESHOLD →
      rs ≤ sub_uintptr (s.malloc_usable_size B) SIZEOF_INSERT)
    (hfit : (B - ROUND_DOWN_PTR s.arena_begin (MALLOC_ALIGN * BITMAP_WORD_NBITS))
      / MALLOC_ALIGN < UNSIGNED_MOD)
    (hnd : ndebug = true →
      s.biggest_unpromoted_object ≤ B ∧ s.malloc_usable_size B ≤ B) :
    ∃ m, pre_alloc R alignment caller = some (m, alignment) ∧
      (m ≤ s.malloc_usable_size B →
        ∃ s1 size heap_info record,
          post_successful_alloc s B ms ma rs ra caller = some s1 ∧
          generic_malloc_get_info ndebug s1 B none
            = some (get_info_result.no_error B size heap_info record) ∧
          R ≤ size) := by
  obtain ⟨m, hm, hmR⟩ := pre_alloc_in_range R alignment caller hR
  refine ⟨m, hm, fun hus => ?_⟩
  have hend := hc.1
  have hhi : B < s.arena_end := by
    unfold SIZEOF_EXTENDED_INSERT at hmR
    omega
  obtain ⟨s1, hs1⟩ := post_successful_alloc_returns ms ma ra caller hc hlo hhi hreq
  obtain ⟨_, _, s2, hs2, hs12⟩ := post_successful_alloc_some hs1
  obtain ⟨info, info1, hinfo, hbase, hset, hpriv, _, hus2, hbeg, _, hinit2, _, hprom⟩ :=
    bitmap_insert_some hs2
  obtain ⟨hidx, hnw, hb1, hbm⟩ := bitmap_set_l_some hset
  have hB64 : B < UINTPTR_MOD := by
    unfold MALLOC_ALIGN BITMAP_WORD_NBITS at hend
    omega
  have hble : info.bitmap_base_addr ≤ B := by
    rw [hbase]
    unfold ROUND_DOWN_PTR MALLOC_ALIGN BITMAP_WORD_NBITS
    omega
  have hidxp : insert_bit_index info B = (B - info.bitmap_base_addr) / MALLOC_ALIGN := by
    unfold insert_bit_index
    rw [sub_uintptr_of_le hble hB64]
  have hcus : caller_usable_size_for_chunk_and_malloc_usable_size B (s.malloc_usable_size B)
      = s.malloc_usable_size B - SIZEOF_EXTENDED_INSERT := by
    unfold caller_usable_size_for_chunk_and_malloc_usable_size
    apply sub_uintptr_of_le
    · unfold SIZEOF_EXTENDED_INSERT at *
      omega
    · unfold MALLOC_ALIGN BITMAP_WORD_NBITS at hend
      omega
  have hpriv1 : s1.suballocator_private = some info1 := by rw [hs12]; exact hpriv
  have hbeg1 : s1.arena_begin = s.arena_begin := by rw [hs12]; exact hbeg
  have hus1 : s1.malloc_usable_size = s.malloc_usable_size := by rw [hs12]; exact hus2
  have hbup1 : s1.biggest_unpromoted_object ≤
      MAX (s.malloc_usable_size B - SIZEOF_EXTENDED_INSERT) s.biggest_unpromoted_object := by
    rw [hs12]
    show s2.biggest_unpromoted_object ≤ _
    split at hprom
    · rw [hprom.2]; exact le_MAX_right _ _
    · rw [hprom.2, hcus]
  have hlook : lookup ndebug s1 B = some (some (B, insert_for_chunk s1 B)) := by
    apply lookup_of_nearest_bit ndebug s1 info1 B B hpriv1
    · rw [hb1, hbase, hbeg1]
    · exact hB64
    · rw [hb1]; exact hble
    · exact le_refl _
    · exact halign
    · rw [hbm, hb1, ← hidxp]
      simp
    · rw [hnw, hb1, ← hidxp]
      exact hidx
    · intro j h1 h2
      omega
    · rw [hb1, hbase]
      exact hfit
    · intro e
      obtain ⟨n1, n2⟩ := hnd e
      have hmax : MAX (s.malloc_usable_size B - SIZEOF_EXTENDED_INSERT)
          s.biggest_unpromoted_object ≤ B := by
        unfold MAX
        split <;> omega
      exact ⟨le_trans hbup1 hmax, by omega⟩
  have hinit1 : s1.big_allocations_1_begin ≠ 0 := by
    rw [hs12]
    show s2.big_allocations_1_begin ≠ 0
    rw [hinit2]
    exact hinit
  have hinfo1 : lookup_object_info ndebug s1 (some ()) B
      = some (some (insert_for_chunk s1 B, B, usersize s1 B)) := by
    unfold lookup_object_info
    rw [if_neg hinit1, hlook]
    simp [hB0]
  have harena1 : arena_for_userptr s1 B = some () := by
    rw [hs12]
    simp only [arena_for_userptr]
    obtain ⟨a1, a2, _⟩ := post_successful_alloc_some hs1
    obtain ⟨_, _, _, _, _, _, _, _, g1, g2, _⟩ := bitmap_insert_some hs2
    simp [g1, g2, a1, a2]
  refine ⟨s1, caller_usable_size_for_chunk_and_malloc_usable_size B (usersize s1 B),
    insert_for_chunk s1 B, s1.inserts (insert_for_chunk s1 B), hs1, ?_, ?_⟩
  · unfold generic_malloc_get_info get_info_by_lookup
    simp only [harena1, hinfo1]
    rw [if_neg (by simp), if_neg (by simp [hB0])]
  · show R ≤ caller_usable_size_for_chunk_and_malloc_usable_size B (usersize s1 B)
    unfold usersize
    rw [hus1, hcus]
    unfold SIZEOF_EXTENDED_INSERT at *
    omega


theorem eq_some_getD {α : Type} (o : Option α) (d : α) (h : o.isSome = true) :
    o = some (o.getD d) := by
  cases o with
  | none => simp at h
  | some a => rfl

/-- The reverse lookup theorem at a concrete run: offset 8 inside the 32-byte
chunk at `0x10400`, in an `NDEBUG` build. -/
theorem lookup_reports_chunk_start_witness :
    lookup true demo_run_state (0x10400 + 8)
      = some (some (0x10400, insert_for_chunk demo_run_state 0x10400)) :=
  lookup_reports_chunk_start true 0x10000 0x80000 demo_usable
    [(0x10400, 24, 77), (0x11000, 200000, 78)] demo_run_state 0x10400 8
    (by decide!) (eq_some_getD _ _ (by decide!)) (by decide) (by decide!) (by decide)
    (by decide!) (by decide!) (by decide!) (by decide!) (by decide!) (fun _ => by decide!)

/-- The allocation round trip at a concrete call: a request of 24 bytes served
by the 32-byte chunk at `0x10400`. -/
theorem get_info_round_trip_in_range_witness :
    ∃ m, pre_alloc 24 16 77 = some (m, 16) ∧
      (m ≤ demo_initial.malloc_usable_size 0x10400 →
        ∃ s1 size heap_info record,
          post_successful_alloc demo_initial 0x10400 32 16 24 16 77 = some s1 ∧
          generic_malloc_get_info true s1 0x10400 none
            = some (get_info_result.no_error 0x10400 size heap_info record) ∧
          24 ≤ size) :=
  get_info_round_trip_in_range true demo_initial 24 16 77 0x10400 32 16 24 16
    (by decide!) ⟨by decide!, fun i hi => by cases hi⟩ (by decide) (by decide) (by decide)
    (by decide!) (by decide) (fun _ => by decide!) (by decide!) (fun _ => by decide!)


/-! ## The high-water marks -/

theorem bitmap_insert_marks {s s1 : heap_state} {p r c : Nat}
    (h : bitmap_insert s p r c = some s1) :
    s.biggest_allocated_object ≤ s1.biggest_allocated_object ∧
    s.biggest_unpromoted_object ≤ s1.biggest_unpromoted_object := by
  obtain ⟨info, info1, _, _, _, _, _, _, _, _, _, hbao, hprom⟩ := bitmap_insert_some h
  constructor
  · rw [hbao]; exact le_MAX_right _ _
  · split at hprom
    · rw [hprom.2]
    · rw [hprom.2]; exact le_MAX_right _ _

theorem bitmap_delete_marks {s s1 : heap_state} {p : Nat}
    (h : bitmap_delete s p = some s1) :
    s1.biggest_allocated_object = s.biggest_allocated_object ∧
    s1.biggest_unpromoted_object = s.biggest_unpromoted_object := by
  unfold bitmap_delete at h
  split at h
  · exact absurd h (by simp)
  · split at h
    · simp only [Option.some.injEq] at h
      subst h
      exact ⟨rfl, rfl⟩
    · split at h
      · exact absurd h (by simp)
      · split at h
        · exact absurd h (by simp)
        · split at h
          · exact absurd h (by simp)
          · split at h
            · exact absurd h (by simp)
            · simp only [Option.some.injEq] at h
              subst h
              exact ⟨rfl, rfl⟩

theorem post_nonnull_nonzero_realloc_marks {s s1 : heap_state}
    {p ms old caller np : Nat}
    (h : post_nonnull_nonzero_realloc s p ms old caller np = some s1) :
    s.biggest_allocated_object ≤ s1.biggest_allocated_object ∧
    s.biggest_unpromoted_object ≤ s1.biggest_unpromoted_object := by
  unfold post_nonnull_nonzero_realloc at h
  simp only [] at h
  split at h
  · exact absurd h (by simp)
  · rename_i s2 hs2
    have hm : s.biggest_allocated_object ≤ s2.biggest_allocated_object ∧
        s.biggest_unpromoted_object ≤ s2.biggest_unpromoted_object := by
      split at hs2
      · split at hs2
        · exact absurd hs2 (by simp)
        · exact bitmap_insert_marks hs2
      · split at hs2
        · exact absurd hs2 (by simp)
        · exact bitmap_insert_marks hs2
    split at h
    · split at h
      · simp only [Option.some.injEq] at h
        subst h
        exact hm
      · simp only [Option.some.injEq] at h
        subst h
        exact hm
    · simp only [Option.some.injEq] at h
      subst h
      exact hm

/-- C11: whenever one of the five hooks returns (`post_successful_alloc`,
`pre_nonnull_free`, `post_nonnull_free`, `pre_nonnull_nonzero_realloc`,
`post_nonnull_nonzero_realloc`), `biggest_allocated_object` and
`biggest_unpromoted_object` are each at least what they were before the
call. -/
theorem high_water_marks_monotone (s : heap_state) :
    (∀ p ms ma rs ra caller s1, post_successful_alloc s p ms ma rs ra caller = some s1 →
      s.biggest_allocated_object ≤ s1.biggest_allocated_object ∧
      s.biggest_unpromoted_object ≤ s1.biggest_unpromoted_object) ∧
    (∀ p usable veto s1, pre_nonnull_free s p usable = some (veto, s1) →
      s.biggest_allocated_object ≤ s1.biggest_allocated_object ∧
      s.biggest_unpromoted_object ≤ s1.biggest_unpromoted_object) ∧
    (∀ p, s.biggest_allocated_object ≤ (post_nonnull_free s p).biggest_allocated_object ∧
      s.biggest_unpromoted_object ≤ (post_nonnull_free s p).biggest_unpromoted_object) ∧
    (∀ p size caller s1, pre_nonnull_nonzero_realloc s p size caller = some s1 →
      s.biggest_allocated_object ≤ s1.biggest_allocated_object ∧
      s.biggest_unpromoted_object ≤ s1.biggest_unpromoted_object) ∧
    (∀ p ms old caller np s1, post_nonnull_nonzero_realloc s p ms old caller np = some s1 →
      s.biggest_allocated_object ≤ s1.biggest_allocated_object ∧
      s.biggest_unpromoted_object ≤ s1.biggest_unpromoted_object) := by
  refine ⟨?_, ?_, ?_, ?_, ?_⟩
  · intro p ms ma rs ra caller s1 h
    obtain ⟨_, _, s2, hs2, rfl⟩ := post_successful_alloc_some h
    have hm := bitmap_insert_marks hs2
    exact hm
  · intro p usable veto s1 h
    unfold pre_nonnull_free at h
    split at h
    · exact absurd h (by simp)
    · split at h
      · exact absurd h (by simp)
      · rename_i s2 hs2
        simp only [Option.some.injEq, Prod.mk.injEq] at h
        obtain ⟨e1, e2⟩ := bitmap_delete_marks hs2
        rw [← h.2, e1, e2]
        exact ⟨le_refl _, le_refl _⟩
  · intro p
    exact ⟨le_refl _, le_refl _⟩
  · intro p size caller s1 h
    unfold pre_nonnull_nonzero_realloc at h
    split at h
    · exact absurd h (by simp)
    · obtain ⟨e1, e2⟩ := bitmap_delete_marks h
      rw [e1, e2]
      exact ⟨le_refl _, le_refl _⟩
  · intro p ms old caller np s1 h
    exact post_nonnull_nonzero_realloc_marks h

/-- C11, at a concrete call: indexing the 32-byte chunk at `0x10400` raises both
marks from 0 to 24. -/
theorem high_water_marks_monotone_witness :
    ∃ s1, post_successful_alloc demo_initial 0x10400 32 16 24 16 77 = some s1 ∧
      demo_initial.biggest_allocated_object ≤ s1.biggest_allocated_object ∧
      demo_initial.biggest_unpromoted_object ≤ s1.biggest_unpromoted_object := by
  obtain ⟨s1, hs1⟩ := @post_successful_alloc_returns demo_initial 0x10400 24 32 16 16 77
    ⟨by decide!, fun i hi => by cases hi⟩ (by decide!) (by decide!) (fun _ => by decide!)
  exact ⟨s1, hs1, (high_water_marks_monotone demo_initial).1 _ _ _ _ _ _ s1 hs1⟩


/-! ## The bitmap store under `check_arena_bitmap` -/

theorem check_arena_bitmap_fixed (t : heap_state) (i : arena_bitmap_info)
    (hp : t.suballocator_private = some i)
    (hfull : ¬ i.nwords <
      sub_uintptr (ROUND_UP_PTR t.arena_end (MALLOC_ALIGN * BITMAP_WORD_NBITS))
          (ROUND_DOWN_PTR t.arena_begin (MALLOC_ALIGN * BITMAP_WORD_NBITS))
        / (MALLOC_ALIGN * BITMAP_WORD_NBITS)) :
    check_arena_bitmap t = t := by
  unfold check_arena_bitmap
  simp only [hp]
  rw [if_neg hfull, ← hp]

theorem check_arena_bitmap_full (s : heap_state) :
    ∃ i, (check_arena_bitmap s).suballocator_private = some i ∧
      ¬ i.nwords <
        sub_uintptr (ROUND_UP_PTR s.arena_end (MALLOC_ALIGN * BITMAP_WORD_NBITS))
            (ROUND_DOWN_PTR s.arena_begin (MALLOC_ALIGN * BITMAP_WORD_NBITS))
          / (MALLOC_ALIGN * BITMAP_WORD_NBITS) := by
  unfold check_arena_bitmap
  simp only []
  split
  · exact ⟨_, rfl, Nat.lt_irrefl _⟩
  · rename_i hfull
    exact ⟨_, rfl, hfull⟩

/-- C14: a second call of `check_arena_bitmap`, the arena bounds being what
they were at the first, leaves the state, and so the store with its base
address, word count and words, as the first call left it. -/
theorem check_arena_bitmap_idempotent (s : heap_state) :
    check_arena_bitmap (check_arena_bitmap s) = check_arena_bitmap s := by
  obtain ⟨i, hi, hfull⟩ := check_arena_bitmap_full s
  obtain ⟨f1, f2, _⟩ := check_arena_bitmap_frame s
  exact check_arena_bitmap_fixed _ i hi (by rw [f1, f2]; exact hfull)

/-- What `check_arena_bitmap` does to the bits when it grows the store from
`n` to `m > n` words: every bit below `n * BITMAP_WORD_NBITS` keeps its value,
and every bit from there up to `m * BITMAP_WORD_NBITS` is what the memory of
the private allocator held; a store attached by the call holds that memory
throughout. -/
theorem check_arena_bitmap_growth (s : heap_state) (info1 : arena_bitmap_info)
    (h1 : (check_arena_bitmap s).suballocator_private = some info1) :
    (∀ info, s.suballocator_private = some info → info.nwords < info1.nwords →
      (∀ i, i < info.nwords * BITMAP_WORD_NBITS → info1.bitmap i = info.bitmap i) ∧
      (∀ i, info.nwords * BITMAP_WORD_NBITS ≤ i → i < info1.nwords * BITMAP_WORD_NBITS →
        info1.bitmap i = s.private_memory i)) ∧
    (s.suballocator_private = none → 0 < info1.nwords →
      ∀ i, info1.bitmap i = s.private_memory i) := by
  unfold check_arena_bitmap private_realloc at h1
  simp only [] at h1
  constructor
  · intro info hinfo hgrow
    simp only [hinfo] at h1
    split at h1
    · simp only [Option.some.injEq] at h1
      subst h1
      exact ⟨fun i hi => by simp [hi], fun i hi _ => by simp [Nat.not_lt.2 hi]⟩
    · simp only [Option.some.injEq] at h1
      subst h1
      exact absurd hgrow (Nat.lt_irrefl _)
  · intro hnone hpos i
    simp only [hnone] at h1
    split at h1
    · simp only [Option.some.injEq] at h1
      subst h1
      simp
    · simp only [Option.some.injEq] at h1
      subst h1
      exact absurd hpos (Nat.lt_irrefl _)

/-- C12: the arena now ends at `0x80000` and its store has 64 words with bit 5
set, the memory of the private allocator holding ones; `check_arena_bitmap`
grows the store to 448 words, bits 5 and 6 keep their values, and the bits from
`64 * 64 = 4096` up to `448 * 64 - 1 = 28671` are set, not zero (observed at
both ends and in the middle): nothing zeroes the words `__private_realloc`
adds. -/
theorem check_arena_bitmap_growth_not_zeroed :
    recycled_store_state.suballocator_private.map (fun i => (i.nwords, i.bitmap 5, i.bitmap 6))
      = some (64, true, false) ∧
    (check_arena_bitmap recycled_store_state).suballocator_private.map
      (fun i => (i.nwords, i.bitmap 5, i.bitmap 6, i.bitmap 4096, i.bitmap 10000,
        i.bitmap 28671)) = some (448, true, false, true, true, true) := by
  decide!

/-- C13: the arena's begin has moved from `0x10000` to `0x10400` since the
store was attached; `check_arena_bitmap` keeps the 64 words and leaves the base
address at `0x10000`, not at the begin rounded down, `0x10400`, and the
assertion of `bitmap_insert` on the base address then fails. -/
theorem check_arena_bitmap_keeps_stale_base :
    (check_arena_bitmap moved_arena_state).suballocator_private.map
        (fun i => (i.nwords, i.bitmap_base_addr)) = some (64, 0x10000) ∧
    ROUND_DOWN_PTR (check_arena_bitmap moved_arena_state).arena_begin
        (MALLOC_ALIGN * BITMAP_WORD_NBITS) = 0x10400 ∧
    (bitmap_insert moved_arena_state 0x10800 24 77).isNone = true := by
  decide!

/-- The part of the store invariant that `check_arena_bitmap` does keep: the
word count never decreases, and the base address is the arena's begin rounded
down whenever the call grows the store. -/
theorem check_arena_bitmap_word_count (s : heap_state) (info1 : arena_bitmap_info)
    (h1 : (check_arena_bitmap s).suballocator_private = some info1) :
    ∀ info, s.suballocator_private = some info →
      info.nwords ≤ info1.nwords ∧
      (info.nwords < info1.nwords → info1.bitmap_base_addr =
        ROUND_DOWN_PTR s.arena_begin (MALLOC_ALIGN * BITMAP_WORD_NBITS)) := by
  intro info hinfo
  unfold check_arena_bitmap at h1
  simp only [hinfo] at h1
  split at h1
  · rename_i hgrow
    simp only [Option.some.injEq] at h1
    subst h1
    exact ⟨Nat.le_of_lt hgrow, fun _ => rfl⟩
  · simp only [Option.some.injEq] at h1
    subst h1
    exact ⟨Nat.le_refl _, fun h => absurd h (Nat.lt_irrefl _)⟩


/-! ## `pre_alloc` -/

/-- C15: for the request `2 ^ 64 - 1`, `pre_alloc` returns the size 8, which is
not at least the request plus the record size; the alignment is returned as it
was. -/
theorem pre_alloc_wraps_near_maximum :
    pre_alloc 18446744073709551615 16 77 = some (8, 16) ∧
    ¬ (18446744073709551615 + SIZEOF_EXTENDED_INSERT ≤ 8) := by
  decide!

/-- What `pre_alloc` does for every request: it returns, the size it returns is
a multiple of the pointer alignment, and the alignment is returned as it was;
having no state argument, it reads and writes no global. -/
theorem pre_alloc_shape (R alignment caller : Nat) :
    ∃ m, pre_alloc R alignment caller = some (m, alignment) ∧ m % ALIGNOF_VOIDP = 0 := by
  unfold pre_alloc CHUNK_SIZE_WITH_TRAILER ROUND_UP_PTR
  unfold SIZEOF_EXTENDED_INSERT ALIGNOF_VOIDP UINTPTR_MOD
  refine ⟨(R + 8 + 8 - 1) / 8 * 8 % 18446744073709551616, ?_, ?_⟩
  · rw [if_pos (by omega)]
  · omega

/-! ## Lookup on an arena without a store -/

/-- C16: the arena `[0x10000, 0x80000)` is registered and has no store attached;
`lookup` at an address inside it is fatal in the debug and in the `NDEBUG`
build, and so is `lookup_object_info`, whose guard only asks whether the
registry is initialised. -/
theorem lookup_without_store_is_fatal :
    demo_initial.suballocator_private.isNone = true ∧
    demo_initial.big_allocations_1_begin ≠ 0 ∧
    lookup false demo_initial 0x10400 = none ∧
    lookup true demo_initial 0x10400 = none ∧
    lookup_object_info false demo_initial (some ()) 0x10400 = none ∧
    lookup_object_info true demo_initial (some ()) 0x10400 = none := by
  decide!

/-- On an arena without a store `lookup` is fatal at every address; before the
registry is initialised `lookup_object_info` returns `NULL` without calling
it. -/
theorem lookup_without_store (ndebug : Bool) (s : heap_state) (mem : Nat) :
    (s.suballocator_private = none → lookup ndebug s mem = none) ∧
    (s.big_allocations_1_begin = 0 →
      ∀ arena, lookup_object_info ndebug s arena mem = some none) := by
  constructor
  · intro h
    simp [lookup, h]
  · intro h arena
    simp [lookup_object_info, h]

/-! ## The bit indices of insert and delete -/

/-- C17: for the chunk at `0x10400` in the arena based at `0x10000`,
`bitmap_insert` sets bit 64 and `bitmap_delete` clears bit 1; after the insert
followed by the delete the bit of the chunk is still set. -/
theorem delete_clears_another_index :
    (post_successful_alloc demo_initial 0x10400 32 16 24 16 77).bind
      (fun s => s.suballocator_private.map
        (fun i => (insert_bit_index i 0x10400, delete_bit_index i 0x10400)))
      = some (64, 1) ∧
    (post_successful_alloc demo_initial 0x10400 32 16 24 16 77).bind
      (fun s => (bitmap_delete s 0x10400).map (fun s1 => bitmap_bit_set s1 0x10400))
      = some true := by
  decide!

/-- C18: with the bitmap covering `[0x10000, 0x80000)`, the address `0x80000`
passes both tracked-range assertions of `bitmap_insert`, and the bit index
computed for it is `448 * 64`, the word count times the bits of a word, not
below it; `bitmap_insert` then fails in `bitmap_set_l`. -/
theorem insert_index_at_coverage_end :
    coverage_end_state.suballocator_private.map (fun i => (i.nwords, i.bitmap_base_addr))
      = some (coverage_end_info.nwords, coverage_end_info.bitmap_base_addr) ∧
    tracked_range_assertions coverage_end_state coverage_end_info 0x80000 = true ∧
    insert_bit_index coverage_end_info 0x80000
      = coverage_end_info.nwords * BITMAP_WORD_NBITS ∧
    (bitmap_insert_metadata (check_arena_bitmap coverage_end_state) 0x80000 24 77).isSome
      = true ∧
    (bitmap_insert coverage_end_state 0x80000 24 77).isNone = true := by
  decide!

/-- Where the index of `bitmap_insert` is in bounds: when the assertions pass
and the address lies at or above the base address and strictly below the end
of the coverage. -/
theorem insert_index_in_bounds (s : heap_state) (info : arena_bitmap_info) (allocptr : Nat)
    (_hassert : tracked_range_assertions s info allocptr = true)
    (hlo : info.bitmap_base_addr ≤ allocptr) (hword : allocptr < UINTPTR_MOD)
    (hhi : allocptr <
      info.bitmap_base_addr + info.nwords * MALLOC_ALIGN * BITMAP_WORD_NBITS) :
    insert_bit_index info allocptr < info.nwords * BITMAP_WORD_NBITS := by
  unfold insert_bit_index
  rw [sub_uintptr_of_le hlo hword]
  unfold MALLOC_ALIGN BITMAP_WORD_NBITS at *
  omega

/-- The assertions `tracked_range_assertions` names are the ones
`bitmap_insert` makes: when it returns they held of the store that
`check_arena_bitmap` left. -/
theorem bitmap_insert_asserted {s s1 : heap_state} {p r c : Nat}
    (h : bitmap_insert s p r c = some s1) :
    ∃ info, (check_arena_bitmap s).suballocator_private = some info ∧
      tracked_range_assertions s info p = true := by
  obtain ⟨f1, _⟩ := check_arena_bitmap_frame s
  unfold bitmap_insert at h
  simp only [] at h
  split at h
  · exact absurd h (by simp)
  · rename_i info hinfo
    split at h
    · exact absurd h (by simp)
    · rename_i hbase
      split at h
      · exact absurd h (by simp)
      · rename_i hend
        refine ⟨info, hinfo, ?_⟩
        rw [f1] at hbase
        simp only [tracked_range_assertions, Bool.and_eq_true, decide_eq_true_eq]
        exact ⟨not_not.mp hbase, Nat.not_lt.1 hend⟩


/-! ## The narrowed search of the `NDEBUG` build -/

theorem bitmap_rfind_beyond_limit (bitmap : Nat → Bool) (p_bitmap p_limit : Nat)
    (h : p_limit ≤ p_bitmap) :
    ∀ n, bitmap_rfind_first_set_leq_l bitmap p_bitmap p_limit n = none := by
  have hmul : p_limit * BITMAP_WORD_NBITS ≤ p_bitmap * BITMAP_WORD_NBITS :=
    Nat.mul_le_mul_right _ h
  intro n
  induction n with
  | zero =>
    rw [bitmap_rfind_first_set_leq_l]
    rw [if_neg (fun hc => absurd hc.1 (Nat.not_lt.2 hmul))]
  | succ n ih =>
    rw [bitmap_rfind_first_set_leq_l]
    rw [if_neg (fun hc => absurd hc.1 (by omega))]
    exact ih

theorem lookup_hides_whole_bitmap (s : heap_state) (info : arena_bitmap_info)
    (hp : s.suballocator_private = some info) (hn : info.nwords = 448)
    (hb : info.bitmap_base_addr = 0x10000) (hbup : s.biggest_unpromoted_object = 131064) :
    lookup true s 0x10400 = some none := by
  have hh : info.nwords ≤ nbits_hidden true s info 0x10400 / BITMAP_WORD_NBITS := by
    unfold nbits_hidden
    simp only [if_true, hbup, hb, hn]
    unfold sub_uintptr ROUND_DOWN_PTR UINTPTR_MOD MALLOC_ALIGN BITMAP_WORD_NBITS
    decide
  unfold lookup
  simp only [hp]
  rw [if_neg (by simp), bitmap_rfind_beyond_limit _ _ _ hh]

/-- C19: in the arena `[0x10000, 0x80000)` the 32-byte chunk at `0x10400` is
bitmap-indexed and its caller-visible size 24 is below
`biggest_unpromoted_object`, which the chunk at `0x20000` has raised to 131064.
The lookup that scans back to the bitmap base reports the chunk; the narrowed
lookup subtracts 131064 from the address `0x10400`, which wraps, hides every
word of the bitmap and reports nothing. -/
theorem narrowed_lookup_misses_low_chunk :
    (low_run_state.promoted = [] ∧ bitmap_bit_set low_run_state 0x10400 = true ∧
      caller_usable_size_for_chunk_and_malloc_usable_size 0x10400
          (low_run_state.malloc_usable_size 0x10400)
        ≤ low_run_state.biggest_unpromoted_object) ∧
    lookup false low_run_state 0x10400 = some (some (0x10400, 0x10418)) ∧
    lookup true low_run_state 0x10400 = some none := by
  refine ⟨by decide!, by decide!, ?_⟩
  have hst : low_run_state.suballocator_private.map (fun i => (i.nwords, i.bitmap_base_addr))
      = some (448, 0x10000) := by decide!
  have hbup : low_run_state.biggest_unpromoted_object = 131064 := by decide!
  cases hp : low_run_state.suballocator_private with
  | none =>
    rw [hp] at hst
    exact absurd hst (by simp)
  | some info =>
    rw [hp] at hst
    simp only [Option.map_some', Option.some.injEq, Prod.mk.injEq] at hst
    exact lookup_hides_whole_bitmap low_run_state info hp hst.1 hst.2 hbup

/-- Where the narrowed search agrees with the full search: for an address `mem`
whose nearest set bit at or before it is the bit of the aligned address `B`,
the two lookups report the same object, provided the subtraction of
`biggest_unpromoted_object` does not wrap, the distance from `B` is at most
`biggest_unpromoted_object`, and the slot index of `mem` fits `unsigned`. -/
theorem lookup_narrowed_agrees (s : heap_state) (info : arena_bitmap_info) (mem B : Nat)
    (hstore : s.suballocator_private = some info)
    (hcons : info.bitmap_base_addr =
      ROUND_DOWN_PTR s.arena_begin (MALLOC_ALIGN * BITMAP_WORD_NBITS))
    (hmem : mem < UINTPTR_MOD) (hB : info.bitmap_base_addr ≤ B) (hBm : B ≤ mem)
    (halign : B % MALLOC_ALIGN = 0)
    (hset : info.bitmap ((B - info.bitmap_base_addr) / MALLOC_ALIGN) = true)
    (hin : (B - info.bitmap_base_addr) / MALLOC_ALIGN < info.nwords * BITMAP_WORD_NBITS)
    (hclear : ∀ j, (B - info.bitmap_base_addr) / MALLOC_ALIGN < j →
      j ≤ (mem - info.bitmap_base_addr) / MALLOC_ALIGN → info.bitmap j = false)
    (hfit : (mem - info.bitmap_base_addr) / MALLOC_ALIGN < UNSIGNED_MOD)
    (hnowrap : s.biggest_unpromoted_object ≤ mem)
    (hsize : mem - B ≤ s.biggest_unpromoted_object) :
    lookup true s mem = lookup false s mem := by
  rw [lookup_of_nearest_bit true s info mem B hstore hcons hmem hB hBm halign hset hin hclear
      hfit (fun _ => ⟨hnowrap, hsize⟩),
    lookup_of_nearest_bit false s info mem B hstore hcons hmem hB hBm halign hset hin hclear
      hfit (fun h => by cases h)]

/-! ## The frame of `bitmap_delete` -/

/-- C20: the chunks at `0x10010` (slot 1) and `0x10400` (slot 64) are both
bitmap-indexed; `bitmap_delete` of the chunk at `0x10400` clears the bit of
the chunk at `0x10010` and leaves its own bit set. -/
theorem delete_unindexes_other_chunk :
    (post_successful_allocs pair_initial [(0x10010, 16, 77), (0x10400, 24, 78)]).bind
      (fun s => (bitmap_delete s 0x10400).map
        (fun s1 => (bitmap_bit_set s 0x10010, bitmap_bit_set s 0x10400,
          bitmap_bit_set s1 0x10010, bitmap_bit_set s1 0x10400)))
      = some (true, true, false, true) := by
  decide!

/-- What `bitmap_delete` does to the bitmap of a chunk that is not promoted:
it clears the bit `delete_bit_index` computes and changes no other bit. -/
theorem bitmap_delete_clears {s s1 : heap_state} {p : Nat}
    (h : bitmap_delete s p = some s1)
    (hnot : lookup_bigalloc_under s p allocator.generic_malloc = none) :
    ∃ info info1, s.suballocator_private = some info ∧
      s1.suballocator_private = some info1 ∧
      info1.bitmap (delete_bit_index info p) = false ∧
      ∀ j, j ≠ delete_bit_index info p → info1.bitmap j = info.bitmap j := by
  unfold bitmap_delete at h
  split at h
  · exact absurd h (by simp)
  · simp only [hnot] at h
    split at h
    · exact absurd h (by simp)
    · rename_i info hinfo
      split at h
      · exact absurd h (by simp)
      · split at h
        · exact absurd h (by simp)
        · split at h
          · exact absurd h (by simp)
          · rename_i info1 hclear
            simp only [Option.some.injEq] at h
            subst h
            unfold bitmap_clear_l at hclear
            split at hclear
            · simp only [Option.some.injEq] at hclear
              subst hclear
              exact ⟨info, _, hinfo, rfl, by simp, fun j hj => by simp [hj]⟩
            · exact absurd hclear (by simp)


/-! ## Reallocation that does not move the chunk -/

/-- C21: the chunks at `0x10010` (slot 1) and `0x10400` (slot 64) are
bitmap-indexed and the usable size of the second does not change;
`pre_nonnull_nonzero_realloc(0x10400)` followed by
`post_nonnull_nonzero_realloc` with `new_allocptr` equal to `0x10400`, or
null, leaves the bit of the chunk at `0x10010` cleared: the bitmap is not what
it was before the pair of calls. -/
theorem realloc_not_moved_changes_bitmap :
    (post_successful_allocs pair_initial [(0x10010, 16, 77), (0x10400, 24, 78)]).bind
      (fun s => (pre_nonnull_nonzero_realloc s 0x10400 24 78).bind
        (fun s1 => (post_nonnull_nonzero_realloc s1 0x10400 32 32 78 0x10400).map
          (fun s2 => (bitmap_bit_set s 0x10010, bitmap_bit_set s2 0x10010,
            bitmap_bit_set s 0x10400, bitmap_bit_set s2 0x10400))))
      = some (true, false, true, true) ∧
    (post_successful_allocs pair_initial [(0x10010, 16, 77), (0x10400, 24, 78)]).bind
      (fun s => (pre_nonnull_nonzero_realloc s 0x10400 24 78).bind
        (fun s1 => (post_nonnull_nonzero_realloc s1 0x10400 32 32 78 0).map
          (fun s2 => (bitmap_bit_set s 0x10010, bitmap_bit_set s2 0x10010,
            bitmap_bit_set s 0x10400, bitmap_bit_set s2 0x10400))))
      = some (true, false, true, true) := by
  decide!

theorem bitmap_delete_not_promoted {s s1 : heap_state} {p : Nat} {info : arena_bitmap_info}
    (h : bitmap_delete s p = some s1)
    (hnot : lookup_bigalloc_under s p allocator.generic_malloc = none)
    (hstore : s.suballocator_private = some info) :
    info.bitmap_base_addr = ROUND_DOWN_PTR s.arena_begin (MALLOC_ALIGN * BITMAP_WORD_NBITS) ∧
    s1 = { s with suballocator_private := some { info with
      bitmap := fun i => if i = delete_bit_index info p then false else info.bitmap i } } := by
  unfold bitmap_delete at h
  split at h
  · exact absurd h (by simp)
  · simp only [hnot, hstore] at h
    split at h
    · exact absurd h (by simp)
    · rename_i hbase
      split at h
      · exact absurd h (by simp)
      · split at h
        · exact absurd h (by simp)
        · rename_i info1 hclear
          simp only [Option.some.injEq] at h
          subst h
          unfold bitmap_clear_l at hclear
          split at hclear
          · simp only [Option.some.injEq] at hclear
            subst hclear
            exact ⟨not_not.mp hbase, rfl⟩
          · exact absurd hclear (by simp)

theorem post_realloc_not_moved_eq (s : heap_state) (p ms old caller np : Nat)
    (hnp : np = p ∨ np = 0)
    (hnone : lookup_bigalloc_from_root s p allocator.generic_malloc = none) :
    post_nonnull_nonzero_realloc s p ms old caller np =
      match arena_for_userptr s p with
      | none => none
      | some _ =>
        bitmap_insert s p
          (if s.current_allocsz ≠ 0 then s.current_allocsz
            else sub_uintptr ms SIZEOF_EXTENDED_INSERT)
          (if s.current_allocsite ≠ 0 then s.current_allocsite else caller) := by
  have hcond : ¬ (np ≠ 0 ∧ np ≠ p) := by
    rcases hnp with h | h
    · exact fun hc => hc.2 h
    · exact fun hc => hc.1 h
  unfold post_nonnull_nonzero_realloc
  simp only [hnone, if_neg hcond]
  cases arena_for_userptr s p with
  | none => rfl
  | some u =>
    simp only []
    cases bitmap_insert s p
        (if s.current_allocsz ≠ 0 then s.current_allocsz
          else sub_uintptr ms SIZEOF_EXTENDED_INSERT)
        (if s.current_allocsite ≠ 0 then s.current_allocsite else caller) with
    | none => rfl
    | some s1 =>
      simp only []
      split <;> rfl

/-- What the pair of hooks does to the bitmap of a chunk that is not promoted
and does not move: inside the word sequence every bit other than the one
`bitmap_delete` clears is as before, and that one is left cleared unless it is
the chunk's own.  So the bitmap is restored exactly when the bit of slot
(index of the chunk) / 64 was clear, or is the chunk's. -/
theorem realloc_not_moved_bitmap (s s1 s2 : heap_state) (p size ms old caller np : Nat)
    (info : arena_bitmap_info) (hnp : np = p ∨ np = 0)
    (hstore : s.suballocator_private = some info)
    (hnot : lookup_bigalloc_under s p allocator.generic_malloc = none)
    (hset : info.bitmap (insert_bit_index info p) = true)
    (hin : insert_bit_index info p < info.nwords * BITMAP_WORD_NBITS)
    (hpre : pre_nonnull_nonzero_realloc s p size caller = some s1)
    (hpost : post_nonnull_nonzero_realloc s1 p ms old caller np = some s2) :
    ∃ info2, s2.suballocator_private = some info2 ∧
      (∀ j, j < info.nwords * BITMAP_WORD_NBITS → j ≠ delete_bit_index info p →
        info2.bitmap j = info.bitmap j) ∧
      (delete_bit_index info p ≠ insert_bit_index info p →
        info2.bitmap (delete_bit_index info p) = false) := by
  have hdel : bitmap_delete s p = some s1 := by
    unfold pre_nonnull_nonzero_realloc at hpre
    split at hpre
    · exact absurd hpre (by simp)
    · exact hpre
  obtain ⟨hbase, hs1⟩ := bitmap_delete_not_promoted hdel hnot hstore
  have hpriv1 : s1.suballocator_private = some { info with
      bitmap := fun i => if i = delete_bit_index info p then false else info.bitmap i } := by
    rw [hs1]
  have hbeg1 : s1.arena_begin = s.arena_begin := by rw [hs1]
  have hnone1 : lookup_bigalloc_from_root s1 p allocator.generic_malloc = none := by
    rw [hs1]
    exact hnot
  rw [post_realloc_not_moved_eq s1 p ms old caller np hnp hnone1] at hpost
  split at hpost
  · exact absurd hpost (by simp)
  · obtain ⟨i1, i2, hchk, hb1, hsetl, hpriv2, _⟩ := bitmap_insert_some hpost
    obtain ⟨_, _, hb2, hbm⟩ := bitmap_set_l_some hsetl
    obtain ⟨_, hkeep⟩ := check_arena_bitmap_bits hchk
    obtain ⟨_, hk⟩ := hkeep _ hpriv1
    have hidx : insert_bit_index i1 p = insert_bit_index info p := by
      unfold insert_bit_index
      rw [hb1, hbeg1, hbase]
    have hdi : delete_bit_index info p ≤ insert_bit_index info p := by
      unfold delete_bit_index insert_bit_index MALLOC_ALIGN BITMAP_WORD_NBITS
      omega
    refine ⟨i2, hpriv2, ?_, ?_⟩
    · intro j hj hne
      rw [hbm, hidx]
      by_cases hji : j = insert_bit_index info p
      · simp [hji, hset]
      · simp only [hji, if_false]
        rw [hk j hj]
        simp [hne]
    · intro hne
      rw [hbm, hidx]
      simp only [hne, if_false]
      rw [hk _ (lt_of_le_of_lt hdi hin)]
      simp


/-! ## Ordering of the high-water marks -/

theorem MAX_le {a b c : Nat} (ha : a ≤ c) (hb : b ≤ c) : MAX a b ≤ c := by
  unfold MAX
  split
  · exact ha
  · exact hb

theorem bitmap_insert_marks_ordered {s s1 : heap_state} {p r c : Nat}
    (h : bitmap_insert s p r c = some s1)
    (hord : s.biggest_unpromoted_object ≤ s.biggest_allocated_object) :
    s1.biggest_unpromoted_object ≤ s1.biggest_allocated_object := by
  obtain ⟨_, _, _, _, _, _, _, _, _, _, _, hbao, hrest⟩ := bitmap_insert_some h
  rw [hbao]
  split at hrest
  · rw [hrest.2]
    exact le_trans hord (le_MAX_right _ _)
  · rw [hrest.2]
    exact MAX_le (le_MAX_left _ _) (le_trans hord (le_MAX_right _ _))

theorem bitmap_insert_unpromoted_bound {s s1 : heap_state} {p r c : Nat}
    (h : bitmap_insert s p r c = some s1) (hrec : holds_record s p)
    (hbound : s.biggest_unpromoted_object ≤ PROMOTE_THRESHOLD) :
    s1.biggest_unpromoted_object ≤ PROMOTE_THRESHOLD := by
  obtain ⟨_, _, _, _, _, _, _, _, _, _, _, _, hrest⟩ := bitmap_insert_some h
  split at hrest
  · rw [hrest.2]
    exact hbound
  · rename_i hsmall
    rw [hrest.2]
    refine MAX_le ?_ hbound
    unfold caller_usable_size_for_chunk_and_malloc_usable_size
    obtain ⟨h8, hM⟩ := hrec
    rw [sub_uintptr_of_le h8 hM]
    omega

theorem post_realloc_reindexes {s s1 : heap_state} {p ms old caller np : Nat}
    (h : post_nonnull_nonzero_realloc s p ms old caller np = some s1) :
    ∃ s2 r c, bitmap_insert s (if np ≠ 0 ∧ np ≠ p then np else p) r c = some s2 ∧
      s1.biggest_allocated_object = s2.biggest_allocated_object ∧
      s1.biggest_unpromoted_object = s2.biggest_unpromoted_object := by
  unfold post_nonnull_nonzero_realloc at h
  simp only [] at h
  split at h
  · exact absurd h (by simp)
  · rename_i s2 hs2
    have hins : ∃ r c, bitmap_insert s (if np ≠ 0 ∧ np ≠ p then np else p) r c = some s2 := by
      split at hs2
      · rename_i hc
        rw [if_pos hc]
        split at hs2
        · exact absurd hs2 (by simp)
        · exact ⟨_, _, hs2⟩
      · rename_i hc
        rw [if_neg hc]
        split at hs2
        · exact absurd hs2 (by simp)
        · exact ⟨_, _, hs2⟩
    obtain ⟨r, c, hins⟩ := hins
    refine ⟨s2, r, c, hins, ?_⟩
    split at h
    · split at h
      · simp only [Option.some.injEq] at h
        subst h
        exact ⟨rfl, rfl⟩
      · simp only [Option.some.injEq] at h
        subst h
        exact ⟨rfl, rfl⟩
    · simp only [Option.some.injEq] at h
      subst h
      exact ⟨rfl, rfl⟩

theorem post_successful_alloc_inserts {s s1 : heap_state} {p ms ma rs ra caller : Nat}
    (h : post_successful_alloc s p ms ma rs ra caller = some s1) :
    ∃ s2 c, bitmap_insert s p rs c = some s2 ∧
      s1.biggest_allocated_object = s2.biggest_allocated_object ∧
      s1.biggest_unpromoted_object = s2.biggest_unpromoted_object := by
  unfold post_successful_alloc at h
  split at h
  · exact absurd h (by simp)
  · split at h
    · exact absurd h (by simp)
    · rename_i s2 hs2
      simp only [Option.some.injEq] at h
      subst h
      exact ⟨s2, _, hs2, rfl, rfl⟩

theorem pre_nonnull_free_marks {s s1 : heap_state} {p usable veto : Nat}
    (h : pre_nonnull_free s p usable = some (veto, s1)) :
    s1.biggest_allocated_object = s.biggest_allocated_object ∧
    s1.biggest_unpromoted_object = s.biggest_unpromoted_object := by
  unfold pre_nonnull_free at h
  split at h
  · exact absurd h (by simp)
  · split at h
    · exact absurd h (by simp)
    · rename_i s2 hs2
      simp only [Option.some.injEq, Prod.mk.injEq] at h
      obtain ⟨_, h⟩ := h
      subst h
      exact bitmap_delete_marks hs2

theorem pre_nonnull_nonzero_realloc_marks {s s1 : heap_state} {p size caller : Nat}
    (h : pre_nonnull_nonzero_realloc s p size caller = some s1) :
    s1.biggest_allocated_object = s.biggest_allocated_object ∧
    s1.biggest_unpromoted_object = s.biggest_unpromoted_object := by
  unfold pre_nonnull_nonzero_realloc at h
  split at h
  · exact absurd h (by simp)
  · exact bitmap_delete_marks h

/-- In every state reached from an initial state by the hooks, whatever the
chunks they are given, `biggest_unpromoted_object` is at most
`biggest_allocated_object`. -/
theorem unpromoted_mark_le_allocated_mark (ok : heap_state → Nat → Prop) (s : heap_state)
    (h : reachable ok s) :
    s.biggest_unpromoted_object ≤ s.biggest_allocated_object := by
  induction h with
  | initial b e u => exact Nat.le_refl 0
  | environment _ hbao hbup ih => rw [hbao, hbup]; exact ih
  | post_alloc p ms ma rs ra caller _ _ hop ih =>
    obtain ⟨s2, c, hins, hbao, hbup⟩ := post_successful_alloc_inserts hop
    rw [hbao, hbup]
    exact bitmap_insert_marks_ordered hins ih
  | pre_free p usable veto _ hop ih =>
    obtain ⟨hbao, hbup⟩ := pre_nonnull_free_marks hop
    rw [hbao, hbup]; exact ih
  | post_free p _ ih => exact ih
  | pre_realloc p size caller _ hop ih =>
    obtain ⟨hbao, hbup⟩ := pre_nonnull_nonzero_realloc_marks hop
    rw [hbao, hbup]; exact ih
  | post_realloc p ms old caller np _ _ hop ih =>
    obtain ⟨s2, r, c, hins, hbao, hbup⟩ := post_realloc_reindexes hop
    rw [hbao, hbup]
    exact bitmap_insert_marks_ordered hins ih

/-- In every state reached from an initial state by the hooks, when each chunk
given to an inserting hook holds its metadata record (host usable size at least
the record size), `biggest_unpromoted_object` is at most the promotion
threshold. -/
theorem unpromoted_mark_le_threshold (s : heap_state) (h : reachable holds_record s) :
    s.biggest_unpromoted_object ≤ PROMOTE_THRESHOLD := by
  induction h with
  | initial b e u => exact Nat.zero_le _
  | environment _ _ hbup ih => rw [hbup]; exact ih
  | post_alloc p ms ma rs ra caller _ hok hop ih =>
    obtain ⟨s2, c, hins, _, hbup⟩ := post_successful_alloc_inserts hop
    rw [hbup]
    exact bitmap_insert_unpromoted_bound hins hok ih
  | pre_free p usable veto _ hop ih =>
    rw [(pre_nonnull_free_marks hop).2]; exact ih
  | post_free p _ ih => exact ih
  | pre_realloc p size caller _ hop ih =>
    rw [(pre_nonnull_nonzero_realloc_marks hop).2]; exact ih
  | post_realloc p ms old caller np _ hok hop ih =>
    obtain ⟨s2, r, c, hins, _, hbup⟩ := post_realloc_reindexes hop
    rw [hbup]
    exact bitmap_insert_unpromoted_bound hins hok ih

/-- C22: in every state reached from an initial state (both marks zero) by the
hooks of the lifecycle protocol, each chunk given to `post_successful_alloc`
or re-indexed by `post_nonnull_nonzero_realloc` holding its metadata record
(a host usable size of at least the record size, as the host grants for a
size inflated by `pre_alloc`), `biggest_unpromoted_object` is at most
`biggest_allocated_object` and at most 131072, the promotion threshold. -/
theorem high_water_marks_ordered (s : heap_state) (h : reachable holds_record s) :
    s.biggest_unpromoted_object ≤ s.biggest_allocated_object ∧
    s.biggest_unpromoted_object ≤ 131072 ∧ PROMOTE_THRESHOLD = 131072 := by
  have h1 := unpromoted_mark_le_allocated_mark holds_record s h
  have h2 := unpromoted_mark_le_threshold s h
  unfold PROMOTE_THRESHOLD at h2 ⊢
  exact ⟨h1, h2, rfl⟩

/-- C22, at a concrete state: the arena `[0x10000, 0x80000)` after
`post_successful_alloc` has indexed the 32-byte chunk at `0x10400`, which
raises both marks from 0 to 24. -/
theorem high_water_marks_ordered_witness :
    ((post_successful_alloc demo_initial 0x10400 32 16 24 16 77).getD
        demo_initial).biggest_unpromoted_object = 24 ∧
    ((post_successful_alloc demo_initial 0x10400 32 16 24 16 77).getD
        demo_initial).biggest_unpromoted_object
      ≤ ((post_successful_alloc demo_initial 0x10400 32 16 24 16 77).getD
          demo_initial).biggest_allocated_object ∧
    ((post_successful_alloc demo_initial 0x10400 32 16 24 16 77).getD
        demo_initial).biggest_unpromoted_object ≤ 131072 ∧
    PROMOTE_THRESHOLD = 131072 :=
  ⟨by decide!,
   high_water_marks_ordered _
    (reachable.post_alloc 0x10400 32 16 24 16 77
      (reachable.initial 0x10000 0x80000 demo_usable)
      ⟨by decide!, by decide!⟩
      (eq_some_getD _ _ (by decide!)))⟩

/-- Why the chunks are asked to hold their record: a chunk at `0x10400` of
usable size 0 (below the record size, so not a chunk the host grants for a
size inflated by `pre_alloc`, unless that size wrapped to 0 as it does for a
request of `2^64 - 8` bytes) makes the caller-visible size wrap in `size_t`,
and `post_successful_alloc` leaves `biggest_unpromoted_object` at `2^64 - 8`. -/
theorem unpromoted_mark_above_threshold :
    pre_alloc 18446744073709551608 16 77 = some (0, 16) ∧
    tiny_initial.biggest_allocated_object = 0 ∧
    tiny_initial.biggest_unpromoted_object = 0 ∧
    tiny_initial.malloc_usable_size 0x10400 = 0 ∧
    (post_successful_alloc tiny_initial 0x10400 0 16 18446744073709551608 16 77).map
      (fun s => (s.biggest_allocated_object, s.biggest_unpromoted_object,
        decide (s.biggest_unpromoted_object ≤ PROMOTE_THRESHOLD),
        decide (s.biggest_unpromoted_object ≤ s.biggest_allocated_object)))
      = some (18446744073709551608, 18446744073709551608, false, true) ∧
    PROMOTE_THRESHOLD = 131072 := by
  decide!

end GenericMalloc
